import Mathlib

/-!
Shallow embedding of the `levents` event-production pipeline
(`src/levents/levents-core/src/live_client.rs`, `src/levents/levents-core/src/lcu.rs`,
`src/levents/levents-model/src/lib.rs`).

Modelling conventions:
* Rust `u8`/`u32`/`u64` wire counters become `Nat`; explicit clamps from the source
  are kept, and the two arithmetic operations that can overflow at reachable inputs
  are modelled with release-mode wrapping semantics: the u64 successor in
  `DigestState::next_event_id` wraps modulo `2^64` (a wire `EventID` can be
  `2^64 - 1`), and the i32 gold subtraction in `PlayerSnapshot::diff` wraps into
  the `i32` range via `wrap_i32` (the clamp in `from_entry` admits operands
  `-2^31` and `2^31 - 1`, whose difference overflows i32).  Debug builds panic at
  those same inputs instead of wrapping.
* The floating `EventTime` seconds value becomes `ℚ`: every finite `f64` is a
  rational, and the only operations the source applies to it are comparison with
  `5.0` and `round(t * 1000)` with negative/non-finite coerced to `0`.
* Rust `HashMap`s whose iteration order never reaches an observable result
  (`DigestState` hashes, registry keyed by name, item maps keyed by id) become
  association lists with unique keys; `HashSet<u8>` of used slots becomes a `List Nat`
  used only through membership.
-/

namespace Levents

/-- `Team` from `levents-model/src/lib.rs` (serde `rename_all = "lowercase"`). -/
inductive Team where
  | order
  | chaos
  | neutral
deriving DecidableEq, Repr

/-- `PlayerRef` from `levents-model/src/lib.rs`. -/
structure PlayerRef where
  summoner_name : String
  team : Team
  slot : Nat
deriving DecidableEq, Repr

/-- `EventKind` from `levents-model/src/lib.rs`. -/
inductive EventKind where
  | kill
  | death
  | assist
  | levelUp
  | itemAdded
  | itemRemoved
  | goldDelta
  | respawn
  | phaseChange
  | heartbeat
deriving DecidableEq, Repr

/-- `PlayerEvent` from `levents-model/src/lib.rs`. -/
structure PlayerEvent where
  player : PlayerRef
deriving DecidableEq, Repr

/-- `ItemEvent` from `levents-model/src/lib.rs`. -/
structure ItemEvent where
  player : PlayerRef
  item_id : Nat
  item_name : Option String
deriving DecidableEq, Repr

/-- `LevelEvent` from `levents-model/src/lib.rs`. -/
structure LevelEvent where
  player : PlayerRef
  level : Nat
deriving DecidableEq, Repr

/-- `GoldEvent` from `levents-model/src/lib.rs`. -/
structure GoldEvent where
  player : PlayerRef
  delta : Int
  total : Int
deriving DecidableEq, Repr

/-- `PhaseEvent` from `levents-model/src/lib.rs`. -/
structure PhaseEvent where
  phase : String
deriving DecidableEq, Repr

/-- `HeartbeatEvent` from `levents-model/src/lib.rs`. -/
structure HeartbeatEvent where
  seq : Nat
deriving DecidableEq, Repr

/-- `EventPayload` from `levents-model/src/lib.rs`.  The `Custom` variant (an
arbitrary JSON map, never constructed by the live pipeline) is omitted from the
model; no claim mentions it. -/
inductive EventPayload where
  | player (e : PlayerEvent)
  | playerItem (e : ItemEvent)
  | playerLevel (e : LevelEvent)
  | playerGold (e : GoldEvent)
  | phase (e : PhaseEvent)
  | heartbeat (e : HeartbeatEvent)
deriving DecidableEq, Repr

/-- `Event` from `levents-model/src/lib.rs`. -/
structure Event where
  kind : EventKind
  ts : Nat
  payload : EventPayload
deriving DecidableEq, Repr

/-- `EventBatch` from `levents-model/src/lib.rs`. -/
structure EventBatch where
  events : List Event
deriving DecidableEq, Repr

/-- Wire item record (`PlayerItemEntry` in `live_client.rs`). -/
structure PlayerItemEntry where
  item_id : Nat
  display_name : Option String
deriving DecidableEq, Repr

/-- Wire roster record (`PlayerListEntry` in `live_client.rs`).  `currentGold` is an
`Option<f64>` on the wire; the model stores the rounded integer value (rounding to
nearest happens before the clamp in `from_entry`, so only the integer outcome is
observable). -/
structure PlayerListEntry where
  summoner_name : String
  team : String
  level : Nat
  current_gold : Option Int
  is_dead : Bool
  items : List PlayerItemEntry
deriving DecidableEq, Repr

/-- Folded per-item state (`ItemEntry` in `live_client.rs`). -/
structure ItemEntry where
  count : Nat
  name : Option String
deriving DecidableEq, Repr

/-- An item map: association list keyed by item id (models the `HashMap<u32, ItemEntry>`). -/
abbrev ItemMap := List (Nat × ItemEntry)

/-- First binding of a key in an item map (models `HashMap::get`). -/
def lookup_item (m : ItemMap) (k : Nat) : Option ItemEntry :=
  (m.find? (fun p => p.1 == k)).map (·.2)

/-- Drop the binding of a key (models `HashMap::remove`'s effect on the map). -/
def remove_item (m : ItemMap) (k : Nat) : ItemMap :=
  m.filter (fun p => p.1 != k)

/-- One step of `fold_items`: `map.entry(id).or_insert({count: 0, name})` then
`count += 1` and `if name.is_none() { name = display_name }`. -/
def bump_item (m : ItemMap) (item : PlayerItemEntry) : ItemMap :=
  match m with
  | [] => [(item.item_id, ⟨1, item.display_name⟩)]
  | (k, e) :: rest =>
      if k = item.item_id then
        (k, ⟨e.count + 1, match e.name with | some n => some n | none => item.display_name⟩) :: rest
      else
        (k, e) :: bump_item rest item

/-- `fold_items` from `live_client.rs`: folds the possibly-duplicated wire item list
into an id-keyed map, discarding id 0; duplicates count upward and the name is the
first non-`None` display name. -/
def fold_items (items : List PlayerItemEntry) : ItemMap :=
  items.foldl (fun m item => if item.item_id = 0 then m else bump_item m item) []

/-- `parse_team` from `live_client.rs`. -/
def parse_team (team : String) : Team :=
  if team = "ORDER" then .order
  else if team = "CHAOS" then .chaos
  else .neutral

/-- Clamp to the `i32` range (the `.clamp(i32::MIN as f64, i32::MAX as f64)` in
`PlayerSnapshot::from_entry`). -/
def clamp_i32 (g : Int) : Int :=
  max (-(2 ^ 31)) (min (2 ^ 31 - 1) g)

/-- Two's-complement wrap into the `i32` range: what Rust release-mode `i32`
arithmetic produces on overflow (debug builds panic).  Identity on values already
in `[-2^31, 2^31)`. -/
def wrap_i32 (n : Int) : Int :=
  (n + 2 ^ 31) % 2 ^ 32 - 2 ^ 31

/-- `PlayerSnapshot` from `live_client.rs`. -/
structure PlayerSnapshot where
  reference : PlayerRef
  level : Nat
  current_gold : Int
  is_dead : Bool
  items : ItemMap
deriving DecidableEq, Repr

/-- `PlayerSnapshot::from_entry`. -/
def PlayerSnapshot.from_entry (entry : PlayerListEntry) (team : Team) (slot : Nat) :
    PlayerSnapshot where
  reference := ⟨entry.summoner_name, team, slot⟩
  level := min entry.level 255
  current_gold := clamp_i32 (entry.current_gold.getD 0)
  is_dead := entry.is_dead
  items := fold_items entry.items

/-- `Option::or` on names: the first side when it has one, otherwise the second. -/
def or_name : Option String → Option String → Option String
  | some n, _ => some n
  | none, o => o

/-- `push_item_events` from `live_client.rs`: pushes `count` copies of one item event. -/
def push_item_events (ts : Nat) (player : PlayerRef) (kind : EventKind) (item_id : Nat)
    (item_name : Option String) (count : Nat) : List Event :=
  List.replicate count { kind, ts, payload := .playerItem ⟨player, item_id, item_name⟩ }

/-- The loop over `self.items` in `PlayerSnapshot::diff_items`, threading the
`remaining` copy of the previous map; returns the emitted events and the leftover
`remaining`. -/
def diff_items_new (reference : PlayerRef) (ts : Nat) :
    ItemMap → ItemMap → List Event × ItemMap
  | [], remaining => ([], remaining)
  | (item_id, new_entry) :: rest, remaining =>
      match lookup_item remaining item_id with
      | some old_entry =>
          let evs :=
            if old_entry.count < new_entry.count then
              push_item_events ts reference .itemAdded item_id
                (or_name new_entry.name old_entry.name)
                (new_entry.count - old_entry.count)
            else if new_entry.count < old_entry.count then
              push_item_events ts reference .itemRemoved item_id
                (or_name old_entry.name new_entry.name)
                (old_entry.count - new_entry.count)
            else []
          let res := diff_items_new reference ts rest (remove_item remaining item_id)
          (evs ++ res.1, res.2)
      | none =>
          let res := diff_items_new reference ts rest remaining
          (push_item_events ts reference .itemAdded item_id new_entry.name new_entry.count
              ++ res.1, res.2)

/-- `PlayerSnapshot::diff_items`. -/
def PlayerSnapshot.diff_items (self previous : PlayerSnapshot) (ts_ms : Nat) : List Event :=
  let res := diff_items_new self.reference ts_ms self.items previous.items
  res.1 ++ res.2.flatMap (fun p =>
    push_item_events ts_ms self.reference .itemRemoved p.1 p.2.name p.2.count)

/-- `PlayerSnapshot::diff`. -/
def PlayerSnapshot.diff (self previous : PlayerSnapshot) (ts_ms : Nat) : List Event :=
  (if previous.level < self.level then
    [{ kind := .levelUp, ts := ts_ms,
       payload := .playerLevel ⟨self.reference, self.level⟩ }]
  else []) ++
  (if wrap_i32 (self.current_gold - previous.current_gold) ≠ 0 then
    [{ kind := .goldDelta, ts := ts_ms,
       payload := .playerGold ⟨self.reference,
                               wrap_i32 (self.current_gold - previous.current_gold),
                               self.current_gold⟩ }]
  else []) ++
  (if previous.is_dead && !self.is_dead then
    [{ kind := .respawn, ts := ts_ms, payload := .player ⟨self.reference⟩ }]
  else []) ++
  self.diff_items previous ts_ms

/-- The player registry (`PlayerRegistry` in `live_client.rs`): a map from summoner
name to last snapshot, modelled as an association list with unique keys. -/
abbrev PlayerRegistry := List (String × PlayerSnapshot)

/-- `self.players.get(&name)` (models `HashMap::get`). -/
def lookup_player (reg : PlayerRegistry) (name : String) : Option PlayerSnapshot :=
  (reg.find? (fun p => p.1 == name)).map (·.2)

/-- `HashMap::insert` on the registry being built: replace an existing binding,
otherwise append. -/
def insert_player (reg : PlayerRegistry) (name : String) (snap : PlayerSnapshot) :
    PlayerRegistry :=
  reg.filter (fun p => p.1 != name) ++ [(name, snap)]

/-- The slot range of a team in `allocate_slot`: `(start, end)`. -/
def slot_range (team : Team) : Nat × Nat :=
  match team with
  | .order => (0, 5)
  | .chaos => (5, 10)
  | .neutral => (0, 10)

/-- `allocate_slot` from `live_client.rs`: first slot of the team's range not in
`used`, falling back to the range's first slot when all are taken. -/
def allocate_slot (team : Team) (used : List Nat) : Nat :=
  let r := slot_range team
  match (List.range' r.1 (r.2 - r.1)).find? (fun s => !used.contains s) with
  | some s => s
  | none => r.1

/-- The per-entry loop body of `PlayerRegistry::apply`, threading the used-slot set,
the new registry and the accumulated events.  `reg` is the registry as it stood
before the apply (lookups of `previous` go against it throughout). -/
def apply_entries (reg : PlayerRegistry) (ts_ms : Nat) :
    List PlayerListEntry → List Nat → PlayerRegistry → List Event →
    PlayerRegistry × List Event
  | [], _, new_players, events => (new_players, events)
  | entry :: rest, used, new_players, events =>
      let team := parse_team entry.team
      let previous := lookup_player reg entry.summoner_name
      let slot :=
        match previous with
        | some snapshot => snapshot.reference.slot
        | none => allocate_slot team used
      let snapshot := PlayerSnapshot.from_entry entry team slot
      let diff_evs :=
        match previous with
        | some prev => snapshot.diff prev ts_ms
        | none => []
      apply_entries reg ts_ms rest (slot :: used)
        (insert_player new_players entry.summoner_name snapshot) (events ++ diff_evs)

/-- `PlayerRegistry::apply`: replaces the registry with the new snapshots and
returns the diff events. -/
def PlayerRegistry.apply (reg : PlayerRegistry) (entries : List PlayerListEntry)
    (ts_ms : Nat) : PlayerRegistry × List Event :=
  apply_entries reg ts_ms entries (reg.map (fun p => p.2.reference.slot)) [] []

/-- `PlayerRegistry::player_ref`. -/
def player_ref (reg : PlayerRegistry) (name : String) : Option PlayerRef :=
  (lookup_player reg name).map (·.reference)

/-- `resolve_player` from `live_client.rs`. -/
def resolve_player (reg : PlayerRegistry) (name : String) : PlayerRef :=
  match player_ref reg name with
  | some r => r
  | none => ⟨name, .neutral, 0⟩

/-- Wire event record (`RawEvent` in `live_client.rs`).  `EventTime` is a finite
`f64` number of seconds, modelled as `ℚ`. -/
structure RawEvent where
  event_id : Nat
  event_name : String
  event_time : ℚ
  killer_name : Option String
  victim_name : Option String
  assisters : List String
  summoner_name : Option String
deriving DecidableEq, Repr

/-- `seconds_to_millis` from `live_client.rs`: negative (and non-finite, which `ℚ`
cannot represent) values coerce to 0, otherwise `round(value * 1000)`.  `f64`
rounding is to-nearest with ties away from zero; on the nonnegative values reaching
this branch that is `⌊scaled + 1/2⌋`, computed here on the reduced fraction as
`(2·num + den) / (2·den)` in integers (exact, and kernel-evaluable). -/
def seconds_to_millis (value : ℚ) : Nat :=
  if value < 0 then 0
  else ((2 * (value * 1000).num + ((value * 1000).den : Int))
        / (2 * ((value * 1000).den : Int))).toNat

/-- The closed set of phase-change event names (`is_phase_change` in `live_client.rs`). -/
def is_phase_change (name : String) : Bool :=
  ["GameStart", "MinionsSpawning", "FirstBrick", "FirstBlood", "TurretKilled",
   "InhibKilled", "InhibRespawningSoon", "InhibRespawned", "DragonKill", "HeraldKill",
   "BaronKill", "GameEnd", "Ace"].contains name

/-- Normalization of one raw event (one iteration of the loop in `normalize_events`). -/
def normalize_one (registry : PlayerRegistry) (raw : RawEvent) : List Event :=
  let timestamp := seconds_to_millis raw.event_time
  if raw.event_name = "ChampionKill" ∨ raw.event_name = "ChampionSpecialKill" then
    (match raw.killer_name with
     | some name =>
        [{ kind := .kill, ts := timestamp,
           payload := .player ⟨resolve_player registry name⟩ }]
     | none => []) ++
    (match raw.victim_name with
     | some name =>
        [{ kind := .death, ts := timestamp,
           payload := .player ⟨resolve_player registry name⟩ }]
     | none => []) ++
    raw.assisters.flatMap (fun assister =>
      if assister = "" then []
      else [{ kind := .assist, ts := timestamp,
              payload := .player ⟨resolve_player registry assister⟩ }])
  else if raw.event_name = "LevelUp" ∨ raw.event_name = "ItemPurchased" ∨
      raw.event_name = "ItemDestroyed" ∨ raw.event_name = "ItemSold" ∨
      raw.event_name = "ItemUndo" then
    []
  else if raw.event_name = "Respawn" then
    match raw.summoner_name with
    | some name =>
        [{ kind := .respawn, ts := timestamp,
           payload := .player ⟨resolve_player registry name⟩ }]
    | none => []
  else if is_phase_change raw.event_name then
    [{ kind := .phaseChange, ts := timestamp,
       payload := .phase ⟨raw.event_name⟩ }]
  else []

/-- `normalize_events` from `live_client.rs`. -/
def normalize_events (raw_events : List RawEvent) (registry : PlayerRegistry) :
    List Event :=
  raw_events.flatMap (normalize_one registry)

/-- `DigestState` from `live_client.rs`. -/
structure DigestState where
  active_hash : Option Nat
  players_hash : Option Nat
  events_hash : Option Nat
  last_event_id : Option Nat
deriving DecidableEq, Repr

/-- `DigestState::next_event_id`.  The source computes the u64 `value + 1`, which
wraps modulo `2^64` in release builds (and panics in debug) when the highwater is
`u64::MAX` — reachable, since the wire `EventID` is a full u64. -/
def DigestState.next_event_id_of (last_event_id : Option Nat) : Nat :=
  match last_event_id with
  | some value => (value + 1) % 2 ^ 64
  | none => 0

/-- `DigestState::should_reset`, as a function of the highwater mark. -/
def should_reset (last_event_id : Option Nat) (events : List RawEvent) : Bool :=
  match last_event_id with
  | none => false
  | some _ => events.any (fun event => event.event_id == 0 && decide (event.event_time < 5))

/-- The maximum kept event id (`new_events.iter().map(event_id).max()`). -/
def max_event_id (events : List RawEvent) : Option Nat :=
  (events.map (·.event_id)).max?

/-- The event-data branch of `PollContext::poll_once` (the Deduplicator's ingest):
restart detection, highwater filter, highwater update, normalization.  Returns the
new highwater mark and the normalized events. -/
def ingest (last_event_id : Option Nat) (raw_events : List RawEvent)
    (registry : PlayerRegistry) : Option Nat × List Event :=
  let last0 := if should_reset last_event_id raw_events then none else last_event_id
  let next_expected := DigestState.next_event_id_of last0
  let new_events := raw_events.filter (fun raw => next_expected ≤ raw.event_id)
  let last1 :=
    match max_event_id new_events with
    | some max_id => some max_id
    | none => last0
  (last1, normalize_events new_events registry)

/-- `PollActivity` from `live_client.rs`. -/
inductive PollActivity where
  | combat
  | normal
  | idle
deriving DecidableEq, Repr

/-- `ActivityState` from `live_client.rs`; instants are modelled as millisecond
counts. -/
structure ActivityState where
  level : PollActivity
  last_activity : Nat
deriving DecidableEq, Repr

/-- The duration fields of `DaemonConfig` the governor reads, in milliseconds. -/
structure DaemonConfig where
  poll_interval_combat : Nat
  poll_interval_normal : Nat
  poll_interval_idle : Nat
  combat_cooldown : Nat
  idle_cooldown : Nat
  error_backoff : Nat
deriving DecidableEq, Repr

/-- `DaemonConfig::default` (the duration fields, in milliseconds). -/
def DaemonConfig.default_config : DaemonConfig where
  poll_interval_combat := 150
  poll_interval_normal := 750
  poll_interval_idle := 1500
  combat_cooldown := 5000
  idle_cooldown := 20000
  error_backoff := 1000

/-- `ActivityState::on_poll`.  `now` is the sampled `Instant::now()`;
`now.duration_since(last_activity)` saturates at zero, as `Nat` subtraction does. -/
def ActivityState.on_poll (self : ActivityState) (had_activity : Bool) (now : Nat)
    (config : DaemonConfig) : ActivityState × Nat :=
  let next :=
    if had_activity then
      ActivityState.mk .combat now
    else
      match self.level with
      | .combat =>
          if config.combat_cooldown ≤ now - self.last_activity then
            ActivityState.mk .normal now
          else self
      | .normal =>
          if config.idle_cooldown ≤ now - self.last_activity then
            ActivityState.mk .idle now
          else self
      | .idle => self
  let delay :=
    match next.level with
    | .combat => config.poll_interval_combat
    | .normal => config.poll_interval_normal
    | .idle => config.poll_interval_idle
  (next, delay)

/-- `ActivityState::on_error`. -/
def ActivityState.on_error (_self : ActivityState) (now : Nat) (config : DaemonConfig) :
    ActivityState × Nat :=
  (ActivityState.mk .idle now, config.error_backoff)

/-- Insert an event into a ts-sorted list after every element with
`ts ≤ e.ts` (one insertion step of a stable sort). -/
def insert_ts (e : Event) : List Event → List Event
  | [] => [e]
  | x :: xs => if x.ts ≤ e.ts then x :: insert_ts e xs else e :: x :: xs

/-- `events.sort_by_key(|event| event.ts)`: Rust's slice sort is stable, modelled as
a left-to-right stable insertion sort. -/
def sort_by_ts (events : List Event) : List Event :=
  events.foldl (fun acc e => insert_ts e acc) []

/-- `PollOutcome` from `live_client.rs` (delays as milliseconds). -/
structure PollOutcome where
  events : List Event
  next_delay : Nat
deriving DecidableEq, Repr

/-- `PollContext`'s owned state (`digest`, `players`, `activity`). -/
structure PollState where
  digest : DigestState
  players : PlayerRegistry
  activity : ActivityState
deriving DecidableEq, Repr

/-- The environment one call of `poll_once` observes: for each endpooint, `none`
models a fetch (transport/HTTP) failure, and `some (hash, parsed)` a 2xx body with
content hash `hash` whose parse result is `parsed` (`none` = malformed payload).
`now_ms` is the sampled wall clock. -/
structure PollInput where
  active_result : Option Nat
  players_result : Option (Nat × Option (List PlayerListEntry))
  events_result : Option (Nat × Option (List RawEvent))
  now_ms : Nat
deriving DecidableEq, Repr

/-- The best-effort active-player probe at the top of `poll_once` (only the hash is
recorded; errors are traced and ignored). -/
def active_step (s : PollState) (input : PollInput) : PollState :=
  match input.active_result with
  | some h => { s with digest := { s.digest with active_hash := some h } }
  | none => s

/-- The error path of `poll_once`: `activity.on_error` and an empty outcome. -/
def error_outcome (config : DaemonConfig) (s : PollState) (now_ms : Nat) :
    PollState × PollOutcome :=
  let res := s.activity.on_error now_ms config
  ({ s with activity := res.1 }, ⟨[], res.2⟩)

/-- The player-list branch of `poll_once`: skipped when the hash matches, otherwise
parse and run the Differ (`none` = parse failure, handled by the caller). -/
def diff_step (s : PollState) (players_hash : Nat)
    (parsed : Option (List PlayerListEntry)) (now_ms : Nat) :
    Option (PollState × List Event) :=
  if s.digest.players_hash = some players_hash then some (s, [])
  else
    match parsed with
    | none => none
    | some list =>
        let res := PlayerRegistry.apply s.players list now_ms
        some ({ s with players := res.1,
                       digest := { s.digest with players_hash := some players_hash } },
              res.2)

/-- The event-data branch of `poll_once`: skipped when the hash matches, otherwise
parse and run the Deduplicator (`none` = parse failure, handled by the caller). -/
def dedup_step (s : PollState) (events_hash : Nat) (parsed : Option (List RawEvent)) :
    Option (PollState × List Event) :=
  if s.digest.events_hash = some events_hash then some (s, [])
  else
    match parsed with
    | none => none
    | some raw_events =>
        let res := ingest s.digest.last_event_id raw_events s.players
        some ({ s with digest := { s.digest with last_event_id := res.1,
                                                 events_hash := some events_hash } },
              res.2)

/-- `PollContext::poll_once`, as a pure state transition over one `PollInput`. -/
def poll_once (config : DaemonConfig) (s : PollState) (input : PollInput) :
    PollState × PollOutcome :=
  let s0 := active_step s input
  match input.players_result with
  | none => error_outcome config s0 input.now_ms
  | some pr =>
      match input.events_result with
      | none => error_outcome config s0 input.now_ms
      | some er =>
          match diff_step s0 pr.1 pr.2 input.now_ms with
          | none => error_outcome config s0 input.now_ms
          | some d =>
              match dedup_step d.1 er.1 er.2 with
              | none => error_outcome config d.1 input.now_ms
              | some n =>
                  let events := sort_by_ts (d.2 ++ n.2)
                  let res := n.1.activity.on_poll (!events.isEmpty) input.now_ms config
                  ({ n.1 with activity := res.1 }, ⟨events, res.2⟩)

/-- The yield decision of `live_event_stream`: a batch is yielded only when the
outcome's event list is non-empty. -/
def stream_yield (outcome : PollOutcome) : Option EventBatch :=
  if outcome.events.isEmpty then none else some ⟨outcome.events⟩

/-- JSON values (`serde_json::Value`); numbers are modelled as integers, which covers
every value the phase extractor inspects (it only ever reads strings). -/
inductive Json where
  | null
  | bool (b : Bool)
  | num (n : Int)
  | str (s : String)
  | arr (items : List Json)
  | obj (fields : List (String × Json))
deriving Repr

/-- `Value::as_str`. -/
def Json.as_str : Json → Option String
  | .str s => some s
  | _ => none

/-- `Map::get` on a JSON object's fields. -/
def json_get (fields : List (String × Json)) (key : String) : Option Json :=
  (fields.find? (fun p => p.1 == key)).map (·.2)

/-- `GAMEFLOW_URI` from `lcu.rs`. -/
def gameflow_uri : String := "/lol-gameflow/v1/gameflow-phase"

mutual

/-- `extract_phase` from `lcu.rs`. -/
def extract_phase : Json → Option String
  | .arr (a :: b :: c :: rest) =>
      if a.as_str = some "OnJsonApiEvent" ∧ b.as_str = some gameflow_uri then
        c.as_str
      else if b.as_str = some "OnJsonApiEvent" then
        match extract_phase c with
        | some phase => some phase
        | none => first_phase (a :: b :: c :: rest)
      else
        first_phase (a :: b :: c :: rest)
  | .arr items => first_phase items
  | .obj fields =>
      match (json_get fields "uri").bind Json.as_str with
      | some uri =>
          if uri = gameflow_uri then
            match json_get fields "data" with
            | some (.str phase) => some phase
            | some (.obj data_fields) =>
                (match (json_get data_fields "phase").bind Json.as_str with
                 | some phase => some phase
                 | none => (json_get data_fields "gameflowPhase").bind Json.as_str)
            | _ => none
          else none
      | none => none
  | _ => none

/-- The `for item in items` recursion loop at the bottom of the array case of
`extract_phase`. -/
def first_phase : List Json → Option String
  | [] => none
  | item :: rest =>
      match extract_phase item with
      | some phase => some phase
      | none => first_phase rest

end

/-- serde tag of `Team` (`rename_all = "lowercase"`). -/
def team_tag : Team → String
  | .order => "order"
  | .chaos => "chaos"
  | .neutral => "neutral"

/-- serde tag of `EventKind`: the variant name under `rename_all = "camelCase"`
(`Kill` ↦ `kill`, `LevelUp` ↦ `levelUp`, …). -/
def event_kind_tag : EventKind → String
  | .kill => "kill"
  | .death => "death"
  | .assist => "assist"
  | .levelUp => "levelUp"
  | .itemAdded => "itemAdded"
  | .itemRemoved => "itemRemoved"
  | .goldDelta => "goldDelta"
  | .respawn => "respawn"
  | .phaseChange => "phaseChange"
  | .heartbeat => "heartbeat"

/-- serde serialization of `PlayerRef` (no rename attribute on the fields). -/
def serialize_player_ref (p : PlayerRef) : Json :=
  .obj [("summoner_name", .str p.summoner_name), ("team", .str (team_tag p.team)),
        ("slot", .num p.slot)]

/-- serde serialization of an `Option<String>` field. -/
def serialize_opt_string : Option String → Json
  | some s => .str s
  | none => .null

/-- serde tag (`payloadKind`) and body (`data`) of `EventPayload`
(`tag = "payloadKind", content = "data", rename_all = "camelCase"`). -/
def serialize_payload : EventPayload → String × Json
  | .player e => ("player", .obj [("player", serialize_player_ref e.player)])
  | .playerItem e =>
      ("playerItem", .obj [("player", serialize_player_ref e.player),
                           ("item_id", .num e.item_id),
                           ("item_name", serialize_opt_string e.item_name)])
  | .playerLevel e =>
      ("playerLevel", .obj [("player", serialize_player_ref e.player),
                            ("level", .num e.level)])
  | .playerGold e =>
      ("playerGold", .obj [("player", serialize_player_ref e.player),
                           ("delta", .num e.delta), ("total", .num e.total)])
  | .phase e => ("phase", .obj [("phase", .str e.phase)])
  | .heartbeat e => ("heartbeat", .obj [("seq", .num e.seq)])

/-- serde serialization of `Event`: keys `kind`, `ts`, and (via `#[serde(flatten)]`
on `payload`) `payloadKind` and `data`. -/
def serialize_event (e : Event) : Json :=
  .obj [("kind", .str (event_kind_tag e.kind)), ("ts", .num e.ts),
        ("payloadKind", .str (serialize_payload e.payload).1),
        ("data", (serialize_payload e.payload).2)]

/-- The folded count of an item id in an item map (0 when absent). -/
def item_count (m : ItemMap) (id : Nat) : Nat :=
  match lookup_item m id with
  | some e => e.count
  | none => 0

/-- The folded display name of an item id in an item map. -/
def item_name_of (m : ItemMap) (id : Nat) : Option String :=
  match lookup_item m id with
  | some e => e.name
  | none => none

/-- Recognizes an item event of the given kind for the given item id. -/
def is_item_event (kind : EventKind) (id : Nat) (e : Event) : Bool :=
  e.kind == kind &&
    match e.payload with
    | .playerItem ie => ie.item_id == id
    | _ => false

/-- The item event `push_item_events` replicates. -/
def mk_item_event (kind : EventKind) (ts : Nat) (player : PlayerRef) (id : Nat)
    (name : Option String) : Event :=
  ⟨kind, ts, .playerItem ⟨player, id, name⟩⟩

/-- Whether the first three elements of an array trigger one of the two
special-cased branches of `extract_phase` (the shape-1 early return or the
shape-2 recursion on the third element). -/
def head_guard : List Json → Bool
  | a :: b :: _ :: _ =>
      (a.as_str == some "OnJsonApiEvent" && b.as_str == some gameflow_uri) ||
      (b.as_str == some "OnJsonApiEvent")
  | _ => false

/-- Fresh poll state (`PollContext::new`: default digest, empty registry, idle
activity). -/
def poll_state0 : PollState := ⟨⟨none, none, none, none⟩, [], ⟨.idle, 0⟩⟩

/-- Concrete baseline snapshot for witnesses: Alpha, ORDER, level 1, 500 gold. -/
def snapshot_alpha : PlayerSnapshot :=
  PlayerSnapshot.from_entry ⟨"Alpha", "ORDER", 1, some 500, false, []⟩ .order 0

/-- Concrete poll state whose registry already holds `snapshot_alpha`. -/
def poll_state1 : PollState :=
  ⟨⟨none, none, none, none⟩, [("Alpha", snapshot_alpha)], ⟨.idle, 0⟩⟩

/-- Concrete poll input: Alpha levelled up to 2 with 650 gold; empty event list. -/
def poll_input_diff : PollInput :=
  ⟨none, some (1, some [⟨"Alpha", "ORDER", 2, some 650, false, []⟩]), some (2, some []), 5⟩

/-- Concrete poll input: empty roster and empty event list. -/
def poll_input_empty : PollInput := ⟨none, some (1, some []), some (2, some []), 5⟩

/-- Concrete poll input: a parsable one-player roster but a malformed event-data
body. -/
def poll_input_badevents : PollInput :=
  ⟨none, some (1, some [⟨"Alpha", "ORDER", 1, some 500, false, []⟩]), some (2, none), 5⟩

/-! ### Theorems -/

/-- Membership in `insert_ts`. -/
theorem mem_insert_ts (e y : Event) :
    ∀ l : List Event, y ∈ insert_ts e l ↔ y = e ∨ y ∈ l := by
  intro l
  induction l with
  | nil => simp [insert_ts]
  | cons x xs ih =>
      rw [insert_ts]
      by_cases h : x.ts ≤ e.ts
      · rw [if_pos h]
        simp only [List.mem_cons, ih]
        tauto
      · rw [if_neg h]
        simp only [List.mem_cons]

/-- `insert_ts` preserves sortedness by `ts`. -/
theorem insert_ts_pairwise (e : Event) :
    ∀ l : List Event, l.Pairwise (fun a b => a.ts ≤ b.ts) →
    (insert_ts e l).Pairwise (fun a b => a.ts ≤ b.ts) := by
  intro l
  induction l with
  | nil => intro _; simp [insert_ts]
  | cons x xs ih =>
      intro hp
      rw [List.pairwise_cons] at hp
      rw [insert_ts]
      by_cases h : x.ts ≤ e.ts
      · rw [if_pos h, List.pairwise_cons]
        refine ⟨fun y hy => ?_, ih hp.2⟩
        rcases (mem_insert_ts e y xs).mp hy with rfl | hy
        · exact h
        · exact hp.1 y hy
      · rw [if_neg h, List.pairwise_cons]
        refine ⟨fun y hy => ?_, List.pairwise_cons.mpr hp⟩
        rcases List.mem_cons.mp hy with rfl | hy
        · exact Nat.le_of_lt (Nat.lt_of_not_le h)
        · exact le_trans (Nat.le_of_lt (Nat.lt_of_not_le h)) (hp.1 y hy)

/-- Filtering one `ts` value out of an `insert_ts` of a sorted list: the inserted
event lands after every already-present event with that `ts`. -/
theorem insert_ts_filter (e : Event) (t : Nat) :
    ∀ l : List Event, l.Pairwise (fun a b => a.ts ≤ b.ts) →
    (insert_ts e l).filter (fun x => x.ts == t)
      = if e.ts = t then l.filter (fun x => x.ts == t) ++ [e]
        else l.filter (fun x => x.ts == t) := by
  intro l
  induction l with
  | nil =>
      intro _
      rw [insert_ts]
      by_cases ht : e.ts = t <;> simp [ht, List.filter_cons]
  | cons x xs ih =>
      intro hp
      rw [List.pairwise_cons] at hp
      rw [insert_ts]
      by_cases h : x.ts ≤ e.ts
      · rw [if_pos h]
        simp only [List.filter_cons, ih hp.2]
        by_cases hx : (x.ts == t) = true <;> by_cases he : e.ts = t <;>
          simp [hx, he, List.cons_append]
      · rw [if_neg h]
        by_cases he : e.ts = t
        · have hnil : (x :: xs).filter (fun y => y.ts == t) = [] := by
            refine List.filter_eq_nil_iff.mpr (fun y hy => ?_)
            have hxy : x.ts ≤ y.ts := by
              rcases List.mem_cons.mp hy with rfl | hy'
              · exact le_refl _
              · exact hp.1 y hy'
            have ht : t < y.ts := lt_of_lt_of_le (he ▸ Nat.lt_of_not_le h) hxy
            simp [Nat.ne_of_gt ht]
          simp [List.filter_cons, he, hnil]
        · simp [List.filter_cons, he]

/-- Sortedness and per-`ts` stability of the insertion-sort fold. -/
theorem sort_foldl_spec :
    ∀ (l acc : List Event), acc.Pairwise (fun a b => a.ts ≤ b.ts) →
    (l.foldl (fun acc e => insert_ts e acc) acc).Pairwise (fun a b => a.ts ≤ b.ts) ∧
    ∀ t : Nat, (l.foldl (fun acc e => insert_ts e acc) acc).filter (fun x => x.ts == t)
      = acc.filter (fun x => x.ts == t) ++ l.filter (fun x => x.ts == t) := by
  intro l
  induction l with
  | nil => intro acc h; exact ⟨h, fun t => by simp⟩
  | cons e rest ih =>
      intro acc h
      rw [List.foldl_cons]
      obtain ⟨hs, hf⟩ := ih (insert_ts e acc) (insert_ts_pairwise e acc h)
      refine ⟨hs, fun t => ?_⟩
      rw [hf t, insert_ts_filter e t acc h, List.filter_cons]
      by_cases he : e.ts = t <;> simp [he, List.append_assoc]

/-- `sort_by_ts` sorts by `ts`. -/
theorem sort_by_ts_sorted (l : List Event) :
    (sort_by_ts l).Pairwise (fun a b => a.ts ≤ b.ts) :=
  (sort_foldl_spec l [] (by simp)).1

/-- `sort_by_ts` is stable: the sublist at each `ts` value is preserved. -/
theorem sort_by_ts_filter (l : List Event) (t : Nat) :
    (sort_by_ts l).filter (fun x => x.ts == t) = l.filter (fun x => x.ts == t) := by
  have h := (sort_foldl_spec l [] (by simp)).2 t
  simpa [sort_by_ts] using h

/-- The events of a poll outcome are always sorted by `ts`. -/
theorem poll_once_events_sorted (config : DaemonConfig) (s : PollState)
    (input : PollInput) :
    (poll_once config s input).2.events.Pairwise (fun a b => a.ts ≤ b.ts) := by
  rw [poll_once]
  cases input.players_result with
  | none => simp [error_outcome]
  | some pr =>
      cases input.events_result with
      | none => simp [error_outcome]
      | some er =>
          cases hd : diff_step (active_step s input) pr.1 pr.2 input.now_ms with
          | none => simp [hd, error_outcome]
          | some d =>
              cases hn : dedup_step d.1 er.1 er.2 with
              | none => simp [hd, hn, error_outcome]
              | some n => simp [hd, hn, sort_by_ts_sorted]

/-- Members of `push_item_events` are all the one replicated item event. -/
theorem mem_push_item_events {e : Event} {ts : Nat} {player : PlayerRef}
    {kind : EventKind} {id : Nat} {name : Option String} {count : Nat}
    (h : e ∈ push_item_events ts player kind id name count) :
    e = mk_item_event kind ts player id name := by
  simpa [mk_item_event] using List.eq_of_mem_replicate h

/-- Every event of the new-side item pass is an `ItemAdded` or an `ItemRemoved`. -/
theorem diff_items_new_kinds (newItems : ItemMap) :
    ∀ (remaining : ItemMap) (reference : PlayerRef) (ts : Nat) (e : Event),
    e ∈ (diff_items_new reference ts newItems remaining).1 →
    e.kind = .itemAdded ∨ e.kind = .itemRemoved := by
  induction newItems with
  | nil =>
      intro remaining reference ts e h
      simp [diff_items_new] at h
  | cons head rest ih =>
      intro remaining reference ts e h
      obtain ⟨id, entry⟩ := head
      rw [diff_items_new] at h
      cases hlk : lookup_item remaining id with
      | some old =>
          simp only [hlk] at h
          rcases List.mem_append.mp h with h' | h'
          · split_ifs at h' with h1 h2
            · exact Or.inl (congrArg Event.kind (mem_push_item_events h'))
            · exact Or.inr (congrArg Event.kind (mem_push_item_events h'))
            · simp at h'
          · exact ih (remove_item remaining id) reference ts e h'
      | none =>
          simp only [hlk] at h
          rcases List.mem_append.mp h with h' | h'
          · exact Or.inl (congrArg Event.kind (mem_push_item_events h'))
          · exact ih remaining reference ts e h'

/-- Every event of the full item diff is an `ItemAdded` or an `ItemRemoved`. -/
theorem diff_items_kinds (self previous : PlayerSnapshot) (ts : Nat) (e : Event)
    (h : e ∈ self.diff_items previous ts) :
    e.kind = .itemAdded ∨ e.kind = .itemRemoved := by
  rw [PlayerSnapshot.diff_items] at h
  rcases List.mem_append.mp h with h' | h'
  · exact diff_items_new_kinds self.items previous.items self.reference ts e h'
  · obtain ⟨p, _, hp⟩ := List.mem_flatMap.mp h'
    exact Or.inr (congrArg Event.kind (mem_push_item_events hp))

/-- Keys of `bump_item`: unchanged when the id is already present, appended otherwise. -/
theorem bump_item_keys (m : ItemMap) (item : PlayerItemEntry) :
    (bump_item m item).map Prod.fst
      = if (m.map Prod.fst).contains item.item_id then m.map Prod.fst
        else m.map Prod.fst ++ [item.item_id] := by
  induction m with
  | nil => simp [bump_item]
  | cons head rest ih =>
      obtain ⟨k, e⟩ := head
      rw [bump_item]
      by_cases hk : k = item.item_id
      · simp [hk]
      · simp only [if_neg hk, List.map_cons, ih, List.contains_cons]
        have hne : (item.item_id == k) = false := by
          simp only [beq_eq_false_iff_ne, ne_eq]
          exact fun h => hk h.symm
        rw [hne, Bool.false_or]
        by_cases hc : (rest.map Prod.fst).contains item.item_id = true
        · rw [if_pos hc, if_pos hc]
        · rw [if_neg hc, if_neg hc, List.cons_append]

/-- `fold_items` produces a map with pairwise-distinct keys. -/
theorem fold_items_nodup (items : List PlayerItemEntry) :
    ((fold_items items).map Prod.fst).Nodup := by
  rw [fold_items]
  have : ∀ (l : List PlayerItemEntry) (m : ItemMap), (m.map Prod.fst).Nodup →
      ((l.foldl (fun m item => if item.item_id = 0 then m else bump_item m item) m).map
        Prod.fst).Nodup := by
    intro l
    induction l with
    | nil => intro m hm; simpa using hm
    | cons item rest ih =>
        intro m hm
        rw [List.foldl_cons]
        by_cases h0 : item.item_id = 0
        · rw [if_pos h0]; exact ih m hm
        · rw [if_neg h0]
          refine ih _ ?_
          rw [bump_item_keys]
          by_cases hc : (m.map Prod.fst).contains item.item_id
          · rwa [if_pos hc]
          · rw [if_neg hc]
            simp only [List.contains, List.elem_eq_mem, decide_eq_true_eq] at hc
            simp [List.nodup_append, hm, hc]
  exact this items [] (by simp)

/-- Diffing an item map against itself (distinct keys) yields nothing. -/
theorem diff_items_new_self (reference : PlayerRef) (ts : Nat) :
    ∀ m : ItemMap, ((m.map Prod.fst).Nodup) →
    diff_items_new reference ts m m = ([], []) := by
  intro m
  induction m with
  | nil => intro _; rfl
  | cons head rest ih =>
      intro hnd
      obtain ⟨k, e⟩ := head
      have hk : k ∉ rest.map Prod.fst := by
        simp only [List.map_cons, List.nodup_cons] at hnd
        exact hnd.1
      have hrest : rest.filter (fun p => p.1 != k) = rest := by
        refine List.filter_eq_self.mpr (fun p hp => ?_)
        simp only [bne_iff_ne, ne_eq, decide_eq_true_eq]
        exact fun hpk => hk (hpk ▸ List.mem_map_of_mem Prod.fst hp)
      have hlk : lookup_item ((k, e) :: rest) k = some e := by
        simp [lookup_item]
      have hrm : remove_item ((k, e) :: rest) k = rest := by
        rw [remove_item, List.filter_cons]
        simp [hrest, remove_item]
      have hnd' : (rest.map Prod.fst).Nodup := by
        simp only [List.map_cons, List.nodup_cons] at hnd
        exact hnd.2
      rw [diff_items_new]
      simp only [hlk, hrm, lt_irrefl, ih hnd']
      simp

/-- `wrap_i32` is the identity on the `i32` range. -/
theorem wrap_i32_eq_self {n : Int} (h1 : -(2 ^ 31) ≤ n) (h2 : n < 2 ^ 31) :
    wrap_i32 n = n := by
  unfold wrap_i32
  omega

/-- `wrap_i32` of zero is zero. -/
theorem wrap_i32_zero : wrap_i32 0 = 0 := by decide

/-- Diffing a snapshot against itself (with folded items) yields nothing. -/
theorem diff_self (snapshot : PlayerSnapshot)
    (hnd : (snapshot.items.map Prod.fst).Nodup) (ts : Nat) :
    snapshot.diff snapshot ts = [] := by
  rw [PlayerSnapshot.diff, PlayerSnapshot.diff_items]
  rw [diff_items_new_self snapshot.reference ts snapshot.items hnd]
  simp [wrap_i32_zero]

/-- A first-ever apply (empty previous registry) emits no events. -/
theorem apply_entries_nil_registry (ts : Nat) :
    ∀ (entries : List PlayerListEntry) (used : List Nat) (acc : PlayerRegistry)
      (events : List Event),
    (apply_entries [] ts entries used acc events).2 = events := by
  intro entries
  induction entries with
  | nil => intro used acc events; rfl
  | cons entry rest ih =>
      intro used acc events
      rw [apply_entries]
      have : lookup_player [] entry.summoner_name = none := rfl
      simp only [this]
      rw [ih]
      simp

/-- C6: every batch yielded by the live poller stream is non-empty and its events
are sorted by `ts` ascending; the sort is stable, so events with equal `ts` keep
production order — all Differ events of a `ts` value before all Deduplicator
events of that value. -/
theorem C6_batches_sorted_stable :
    (∀ (config : DaemonConfig) (s : PollState) (input : PollInput) (batch : EventBatch),
      stream_yield (poll_once config s input).2 = some batch →
      batch.events ≠ [] ∧ batch.events.Pairwise (fun a b => a.ts ≤ b.ts)) ∧
    (∀ (config : DaemonConfig) (s : PollState) (input : PollInput)
       (pr : Nat × Option (List PlayerListEntry)) (er : Nat × Option (List RawEvent))
       (d n : PollState × List Event),
      input.players_result = some pr →
      input.events_result = some er →
      diff_step (active_step s input) pr.1 pr.2 input.now_ms = some d →
      dedup_step d.1 er.1 er.2 = some n →
      (poll_once config s input).2.events = sort_by_ts (d.2 ++ n.2) ∧
      ∀ t : Nat, (poll_once config s input).2.events.filter (fun e => e.ts == t)
        = d.2.filter (fun e => e.ts == t) ++ n.2.filter (fun e => e.ts == t)) := by
  constructor
  · intro config s input batch hb
    rw [stream_yield] at hb
    by_cases hemp : (poll_once config s input).2.events.isEmpty
    · rw [if_pos hemp] at hb
      exact absurd hb (by simp)
    · rw [if_neg hemp] at hb
      cases hb
      refine ⟨fun hnil => hemp ?_, poll_once_events_sorted config s input⟩
      have hnil' : (poll_once config s input).2.events = [] := hnil
      simp [hnil']
  · intro config s input pr er d n hpr her hd hn
    have hout : (poll_once config s input).2.events = sort_by_ts (d.2 ++ n.2) := by
      rw [poll_once]
      simp [hpr, her, hd, hn]
    refine ⟨hout, fun t => ?_⟩
    rw [hout, sort_by_ts_filter, List.filter_append]

/-- Witness for C6: a concrete poll in which the Differ emits a level-up and a
gold-delta yields a non-empty batch, sorted; and the empty poll's outcome equals
the sorted concatenation of its (empty) Differ and Deduplicator event lists. -/
theorem C6_witness :
    stream_yield (poll_once DaemonConfig.default_config poll_state1 poll_input_diff).2
      = some ⟨[⟨.levelUp, 5, .playerLevel ⟨⟨"Alpha", .order, 0⟩, 2⟩⟩,
               ⟨.goldDelta, 5, .playerGold ⟨⟨"Alpha", .order, 0⟩, 150, 650⟩⟩]⟩ ∧
    (([⟨.levelUp, 5, .playerLevel ⟨⟨"Alpha", .order, 0⟩, 2⟩⟩,
       ⟨.goldDelta, 5, .playerGold ⟨⟨"Alpha", .order, 0⟩, 150, 650⟩⟩] : List Event) ≠ [] ∧
     List.Pairwise (fun a b => a.ts ≤ b.ts)
       [(⟨.levelUp, 5, .playerLevel ⟨⟨"Alpha", .order, 0⟩, 2⟩⟩ : Event),
        ⟨.goldDelta, 5, .playerGold ⟨⟨"Alpha", .order, 0⟩, 150, 650⟩⟩]) ∧
    (poll_once DaemonConfig.default_config poll_state0 poll_input_empty).2.events
      = sort_by_ts ([] ++ []) := by
  have hyield : stream_yield
      (poll_once DaemonConfig.default_config poll_state1 poll_input_diff).2
      = some ⟨[⟨.levelUp, 5, .playerLevel ⟨⟨"Alpha", .order, 0⟩, 2⟩⟩,
               ⟨.goldDelta, 5, .playerGold ⟨⟨"Alpha", .order, 0⟩, 150, 650⟩⟩]⟩ := by decide
  refine ⟨hyield, ?_, ?_⟩
  · exact C6_batches_sorted_stable.1 DaemonConfig.default_config poll_state1
      poll_input_diff _ hyield
  · exact (C6_batches_sorted_stable.2 DaemonConfig.default_config poll_state0
      poll_input_empty (1, some []) (2, some [])
      (⟨⟨none, some 1, none, none⟩, [], ⟨.idle, 0⟩⟩, [])
      (⟨⟨none, some 1, some 2, none⟩, [], ⟨.idle, 0⟩⟩, [])
      rfl rfl (by decide) (by decide)).1

/-- C10: within one poll, when a changed player-list body parses (registry
replaced, hash recorded) and the event-data body then fails to parse, `poll_once`
returns an empty outcome with the `errorBackoff` delay — the Differ events of that
poll are discarded — and because the registry and player-list hash were already
updated, any later poll seeing the same player-list hash skips the Differ
entirely, so those events are never emitted. -/
theorem C10_diff_events_discarded :
    (∀ (config : DaemonConfig) (s : PollState) (input : PollInput)
       (ph : Nat) (list : List PlayerListEntry) (eh : Nat),
      input.players_result = some (ph, some list) →
      input.events_result = some (eh, none) →
      (active_step s input).digest.players_hash ≠ some ph →
      (active_step s input).digest.events_hash ≠ some eh →
      (poll_once config s input).2.events = [] ∧
      (poll_once config s input).2.next_delay = config.error_backoff ∧
      (poll_once config s input).1.players
        = (PlayerRegistry.apply (active_step s input).players list input.now_ms).1 ∧
      (poll_once config s input).1.digest.players_hash = some ph) ∧
    (∀ (s2 : PollState) (ph : Nat) (parsed : Option (List PlayerListEntry)) (now : Nat),
      s2.digest.players_hash = some ph →
      diff_step s2 ph parsed now = some (s2, [])) := by
  constructor
  · intro config s input ph list eh hpr her hph heh
    have hdiff : diff_step (active_step s input) ph (some list) input.now_ms
        = some ({ active_step s input with
            players := (PlayerRegistry.apply (active_step s input).players list
              input.now_ms).1,
            digest := { (active_step s input).digest with players_hash := some ph } },
          (PlayerRegistry.apply (active_step s input).players list input.now_ms).2) := by
      unfold diff_step
      rw [if_neg hph]
    have hded : dedup_step ({ active_step s input with
            players := (PlayerRegistry.apply (active_step s input).players list
              input.now_ms).1,
            digest := { (active_step s input).digest with players_hash := some ph } })
          eh none = none := by
      unfold dedup_step
      rw [if_neg (by simpa using heh)]
    rw [poll_once]
    simp only [hpr, her, hdiff, hded]
    simp [error_outcome, ActivityState.on_error]
  · intro s2 ph parsed now h
    unfold diff_step
    rw [if_pos h]

/-- Witness for C10 at the concrete broken-eventdata poll. -/
theorem C10_witness :
    (poll_once DaemonConfig.default_config poll_state1 poll_input_badevents).2.events
        = [] ∧
    (poll_once DaemonConfig.default_config poll_state1 poll_input_badevents).2.next_delay
        = DaemonConfig.default_config.error_backoff ∧
    (poll_once DaemonConfig.default_config poll_state1 poll_input_badevents).1.players
        = (PlayerRegistry.apply (active_step poll_state1 poll_input_badevents).players
            [⟨"Alpha", "ORDER", 1, some 500, false, []⟩]
            poll_input_badevents.now_ms).1 ∧
    (poll_once DaemonConfig.default_config poll_state1 poll_input_badevents).1.digest.players_hash
        = some 1 :=
  C10_diff_events_discarded.1 DaemonConfig.default_config poll_state1
    poll_input_badevents 1 [⟨"Alpha", "ORDER", 1, some 500, false, []⟩] 2
    rfl rfl (by decide) (by decide)

/-- `lookup_player` on a cons cell. -/
theorem lookup_player_cons (p : String × PlayerSnapshot) (m : PlayerRegistry)
    (x : String) :
    lookup_player (p :: m) x = if p.1 = x then some p.2 else lookup_player m x := by
  rw [lookup_player, lookup_player]
  by_cases h : p.1 = x
  · rw [List.find?_cons_of_pos _ (by simpa using h), if_pos h]
    rfl
  · rw [List.find?_cons_of_neg _ (by simpa using h), if_neg h]

/-- `lookup_player` after `insert_player`. -/
theorem lookup_insert_player (m : PlayerRegistry) (k : String) (v : PlayerSnapshot)
    (x : String) :
    lookup_player (insert_player m k v) x
      = if x = k then some v else lookup_player m x := by
  induction m with
  | nil =>
      rw [insert_player]
      by_cases hx : x = k
      · subst hx
        simp [lookup_player]
      · simp only [List.filter_nil, List.nil_append, lookup_player_cons, if_neg hx]
        rw [if_neg (fun h => hx h.symm)]
  | cons head rest ih =>
      have hstep : insert_player (head :: rest) k v
          = if (head.1 != k) = true then head :: insert_player rest k v
            else insert_player rest k v := by
        rw [insert_player, List.filter_cons, insert_player]
        split_ifs <;> simp
      rw [hstep]
      by_cases hk : (head.1 != k) = true
      · rw [if_pos hk, lookup_player_cons, ih, lookup_player_cons]
        have hne : head.1 ≠ k := by simpa using hk
        split_ifs with h1 h2 <;> try rfl
        exact absurd (h1.trans h2) hne
      · rw [if_neg hk, ih]
        have heq : head.1 = k := by simpa using hk
        by_cases hx : x = k
        · rw [if_pos hx, if_pos hx]
        · rw [if_neg hx, if_neg hx, lookup_player_cons,
            if_neg (fun h => hx (h.symm.trans heq))]

/-- Membership in `insert_player`. -/
theorem mem_insert_player {q : String × PlayerSnapshot} {m : PlayerRegistry}
    {k : String} {v : PlayerSnapshot} (h : q ∈ insert_player m k v) :
    q ∈ m ∨ q = (k, v) := by
  rw [insert_player] at h
  rcases List.mem_append.mp h with h' | h'
  · exact Or.inl (List.mem_of_mem_filter h')
  · exact Or.inr (by simpa using h')

/-- One `apply` keeps every previously-assigned slot: any name with a previous
snapshot that appears in the new entry list ends up in the new registry with the
same slot (the accumulator invariant version). -/
theorem apply_entries_slot_keeps (reg : PlayerRegistry) (ts : Nat) :
    ∀ (entries : List PlayerListEntry) (used : List Nat) (acc : PlayerRegistry)
      (evs : List Event) (name : String) (snap : PlayerSnapshot),
    lookup_player reg name = some snap →
    (name ∈ entries.map (·.summoner_name) ∨
      (∃ v, lookup_player acc name = some v ∧
        v.reference.slot = snap.reference.slot)) →
    ∃ snap', lookup_player (apply_entries reg ts entries used acc evs).1 name
        = some snap' ∧ snap'.reference.slot = snap.reference.slot := by
  intro entries
  induction entries with
  | nil =>
      intro used acc evs name snap hreg hd
      rcases hd with hmem | ⟨v, hv, hslot⟩
      · simp at hmem
      · exact ⟨v, hv, hslot⟩
  | cons entry rest ih =>
      intro used acc evs name snap hreg hd
      rw [apply_entries]
      by_cases hname : name = entry.summoner_name
      · subst hname
        refine ih _ _ _ entry.summoner_name snap hreg (Or.inr ?_)
        rw [hreg]
        refine ⟨PlayerSnapshot.from_entry entry (parse_team entry.team)
          snap.reference.slot, ?_, rfl⟩
        rw [lookup_insert_player, if_pos rfl]
      · rcases hd with hmem | ⟨v, hv, hslot⟩
        · rcases List.mem_map.mp hmem with ⟨e, he, hee⟩
          rcases List.mem_cons.mp he with rfl | he'
          · exact absurd hee.symm hname
          · exact ih _ _ _ name snap hreg
              (Or.inl (List.mem_map.mpr ⟨e, he', hee⟩))
        · refine ih _ _ _ name snap hreg (Or.inr ⟨v, ?_, hslot⟩)
          rw [lookup_insert_player, if_neg hname, hv]

/-- Entries whose names do not occur in the remaining list leave the accumulator
binding of that name unchanged. -/
theorem apply_entries_lookup_notmem (reg : PlayerRegistry) (ts : Nat) :
    ∀ (entries : List PlayerListEntry) (used : List Nat) (acc : PlayerRegistry)
      (evs : List Event) (name : String),
    name ∉ entries.map (·.summoner_name) →
    lookup_player (apply_entries reg ts entries used acc evs).1 name
      = lookup_player acc name := by
  intro entries
  induction entries with
  | nil => intro used acc evs name _; rfl
  | cons entry rest ih =>
      intro used acc evs name hnot
      rw [apply_entries]
      have hne : name ≠ entry.summoner_name := fun h =>
        hnot (List.mem_map.mpr ⟨entry, List.mem_cons_self entry rest, h.symm⟩)
      have hrest : name ∉ rest.map (·.summoner_name) := fun h => by
        rcases List.mem_map.mp h with ⟨e, he, hee⟩
        exact hnot (List.mem_map.mpr ⟨e, List.mem_cons_of_mem entry he, hee⟩)
      rw [ih _ _ _ name hrest, lookup_insert_player, if_neg hne]

/-- `find?` over a `≤`-sorted `Nat` list returns a minimal satisfying element. -/
theorem find?_min_nat (p : Nat → Bool) :
    ∀ l : List Nat, l.Pairwise (· ≤ ·) → ∀ a, l.find? p = some a →
    ∀ b ∈ l, p b = true → a ≤ b := by
  intro l
  induction l with
  | nil => intro _ a ha; simp at ha
  | cons x xs ih =>
      intro hp a ha b hb hpb
      rw [List.pairwise_cons] at hp
      by_cases hx : p x = true
      · rw [List.find?_cons_of_pos _ hx] at ha
        cases ha
        rcases List.mem_cons.mp hb with rfl | hb'
        · exact le_refl _
        · exact hp.1 b hb'
      · rw [List.find?_cons_of_neg _ (by simpa using hx)] at ha
        rcases List.mem_cons.mp hb with rfl | hb'
        · exact absurd hpb hx
        · exact ih hp.2 a ha b hb' hpb

/-- C7: a summoner name present in consecutive roster lists keeps its previously
assigned slot across `apply`; a name without a previous snapshot gets the lowest
slot of its team's range not already used — Order allocating from `[0,5)`, Chaos
from `[5,10)`, Neutral from `[0,10)` — and when every slot of the range is used,
the range's first slot is reused. -/
theorem C7_slot_assignment :
    (∀ (reg : PlayerRegistry) (entries : List PlayerListEntry) (ts : Nat)
       (name : String) (snap : PlayerSnapshot),
      lookup_player reg name = some snap →
      name ∈ entries.map (·.summoner_name) →
      ∃ snap', lookup_player (PlayerRegistry.apply reg entries ts).1 name = some snap' ∧
        snap'.reference.slot = snap.reference.slot) ∧
    (∀ (team : Team) (used : List Nat),
      (∃ s ∈ List.range' (slot_range team).1 ((slot_range team).2 - (slot_range team).1),
          s ∉ used) →
      allocate_slot team used
          ∈ List.range' (slot_range team).1 ((slot_range team).2 - (slot_range team).1) ∧
      allocate_slot team used ∉ used ∧
      (∀ s ∈ List.range' (slot_range team).1 ((slot_range team).2 - (slot_range team).1),
          s ∉ used → allocate_slot team used ≤ s)) ∧
    (∀ (team : Team) (used : List Nat),
      (∀ s ∈ List.range' (slot_range team).1 ((slot_range team).2 - (slot_range team).1),
          s ∈ used) →
      allocate_slot team used = (slot_range team).1) ∧
    (∀ (reg : PlayerRegistry) (entry : PlayerListEntry) (rest : List PlayerListEntry)
       (ts : Nat),
      lookup_player reg entry.summoner_name = none →
      entry.summoner_name ∉ rest.map (·.summoner_name) →
      lookup_player (PlayerRegistry.apply reg (entry :: rest) ts).1 entry.summoner_name
        = some (PlayerSnapshot.from_entry entry (parse_team entry.team)
            (allocate_slot (parse_team entry.team)
              (reg.map (fun p => p.2.reference.slot))))) ∧
    (slot_range .order = (0, 5) ∧ slot_range .chaos = (5, 10) ∧
     slot_range .neutral = (0, 10)) := by
  refine ⟨?_, ?_, ?_, ?_, rfl, rfl, rfl⟩
  · intro reg entries ts name snap hreg hmem
    rw [PlayerRegistry.apply]
    exact apply_entries_slot_keeps reg ts entries _ [] [] name snap hreg (Or.inl hmem)
  · intro team used hex
    obtain ⟨s0, hs0mem, hs0not⟩ := hex
    obtain ⟨a, ha⟩ : ∃ a,
        (List.range' (slot_range team).1
          ((slot_range team).2 - (slot_range team).1)).find?
            (fun s => !used.contains s) = some a := by
      rcases hf : (List.range' (slot_range team).1
          ((slot_range team).2 - (slot_range team).1)).find?
            (fun s => !used.contains s) with _ | a
      · exact absurd (List.find?_eq_none.mp hf s0 hs0mem) (by simp [hs0not])
      · exact ⟨a, rfl⟩
    have hallocate : allocate_slot team used = a := by
      unfold allocate_slot
      simp only [ha]
    have hpw : (List.range' (slot_range team).1
        ((slot_range team).2 - (slot_range team).1)).Pairwise (· ≤ ·) := by
      cases team <;> decide
    refine ⟨hallocate ▸ List.mem_of_find?_eq_some ha, ?_, ?_⟩
    · have := List.find?_some ha
      rw [hallocate]
      simpa using this
    · intro s hs hsnot
      rw [hallocate]
      exact find?_min_nat _ _ hpw a ha s hs (by simpa using hsnot)
  · intro team used hall
    have hfind : (List.range' (slot_range team).1
        ((slot_range team).2 - (slot_range team).1)).find?
          (fun s => !used.contains s) = none :=
      List.find?_eq_none.mpr (fun x hx => by simp [hall x hx])
    unfold allocate_slot
    simp only [hfind]
  · intro reg entry rest ts hnone hrest
    rw [PlayerRegistry.apply, apply_entries]
    rw [apply_entries_lookup_notmem reg ts rest _ _ _ entry.summoner_name hrest]
    rw [hnone, lookup_insert_player, if_pos rfl]

/-- Witness for C7 at a fully-used Order range. -/
theorem C7_witness :
    allocate_slot Team.order [0, 1, 2, 3, 4] = (slot_range Team.order).1 :=
  C7_slot_assignment.2.2.1 Team.order [0, 1, 2, 3, 4] (by decide)

/-- The recursive scan returns the left-most element whose extraction succeeds. -/
theorem first_phase_append (p : String) :
    ∀ (l1 : List Json) (j : Json) (l2 : List Json),
    (∀ x ∈ l1, extract_phase x = none) → extract_phase j = some p →
    first_phase (l1 ++ j :: l2) = some p := by
  intro l1
  induction l1 with
  | nil =>
      intro j l2 _ hj
      rw [List.nil_append, first_phase, hj]
  | cons x rest ih =>
      intro j l2 hpre hj
      rw [List.cons_append, first_phase, hpre x (List.mem_cons_self x rest)]
      exact ih j l2 (fun y hy => hpre y (List.mem_cons_of_mem x hy)) hj

/-- When neither three-element head rule fires, the array case of `extract_phase`
is exactly the recursive left-to-right scan. -/
theorem extract_phase_arr_of_guard :
    ∀ items : List Json, head_guard items = false →
    extract_phase (.arr items) = first_phase items := by
  intro items hg
  match items with
  | [] =>
      rw [extract_phase]
      intro a b c rest h
      simp at h
  | [a] =>
      rw [extract_phase]
      intro a' b c rest h
      simp at h
  | [a, b] =>
      rw [extract_phase]
      intro a' b' c rest h
      simp at h
  | a :: b :: c :: rest =>
      rw [head_guard] at hg
      rw [Bool.or_eq_false_iff] at hg
      have hb : b.as_str ≠ some "OnJsonApiEvent" := by
        intro hbe
        rw [hbe] at hg
        simp at hg
      have hab : ¬(a.as_str = some "OnJsonApiEvent" ∧ b.as_str = some gameflow_uri) := by
        rintro ⟨ha, hbu⟩
        rw [ha, hbu] at hg
        simp at hg
      rw [extract_phase, if_neg hab, if_neg hb]

/-- C8 counterexample: a three-element array whose head is `"OnJsonApiEvent"` with
the gameflow URI and whose third element is itself a matching array (so the value
"recursively contains such a match", here of phase `Lobby`) extracts to `none`,
not `Lobby`; the inner array alone does extract to `Lobby`. -/
theorem C8_counterexample :
    extract_phase (Json.arr [Json.str "OnJsonApiEvent", Json.str gameflow_uri,
      Json.arr [Json.str "OnJsonApiEvent", Json.str gameflow_uri, Json.str "Lobby"]])
      = none ∧
    extract_phase (Json.arr [Json.str "OnJsonApiEvent", Json.str gameflow_uri,
      Json.str "Lobby"]) = some "Lobby" := by
  constructor <;> simp [extract_phase, Json.as_str]

/-- C8 (amended): the first two wire shapes extract as claimed — a three-element
array `["OnJsonApiEvent", uri, phase]` yields its third element exactly when it is
a string, and `[n, "OnJsonApiEvent", obj]` with `obj.uri` the gameflow URI yields
`obj.data` when a string, else `obj.data.phase` or `obj.data.gameflowPhase` — and
an array that triggers neither head rule yields the phase of its left-most
recursively-matching element. -/
theorem C8_phase_extraction_amended :
    (∀ phase : String,
      extract_phase (.arr [.str "OnJsonApiEvent", .str gameflow_uri, .str phase])
        = some phase) ∧
    (∀ (n : Int) (fields : List (String × Json)) (phase : String),
      json_get fields "uri" = some (.str gameflow_uri) →
      json_get fields "data" = some (.str phase) →
      extract_phase (.arr [.num n, .str "OnJsonApiEvent", .obj fields]) = some phase) ∧
    (∀ (n : Int) (fields data_fields : List (String × Json)),
      json_get fields "uri" = some (.str gameflow_uri) →
      json_get fields "data" = some (.obj data_fields) →
      extract_phase (.arr [.num n, .str "OnJsonApiEvent", .obj fields])
        = (match (json_get data_fields "phase").bind Json.as_str with
           | some q => some q
           | none => (json_get data_fields "gameflowPhase").bind Json.as_str)) ∧
    (∀ (l1 l2 : List Json) (j : Json) (phase : String),
      head_guard (l1 ++ j :: l2) = false →
      (∀ x ∈ l1, extract_phase x = none) →
      extract_phase j = some phase →
      extract_phase (.arr (l1 ++ j :: l2)) = some phase) := by
  refine ⟨fun phase => ?_, fun n fields phase huri hdata => ?_,
    fun n fields data_fields huri hdata => ?_, fun l1 l2 j phase hg hpre hj => ?_⟩
  · rw [extract_phase]
    simp [Json.as_str]
  · have hobj : extract_phase (.obj fields) = some phase := by
      rw [extract_phase, huri]
      simp [Json.as_str, hdata]
    rw [extract_phase, if_neg (by simp [Json.as_str]),
      if_pos (by simp [Json.as_str]), hobj]
  · have hobj : extract_phase (.obj fields)
        = (match (json_get data_fields "phase").bind Json.as_str with
           | some q => some q
           | none => (json_get data_fields "gameflowPhase").bind Json.as_str) := by
      rw [extract_phase, huri]
      simp [Json.as_str, hdata]
    rw [extract_phase, if_neg (by simp [Json.as_str]),
      if_pos (by simp [Json.as_str]), hobj]
    cases hP : (json_get data_fields "phase").bind Json.as_str with
    | some q => simp [hP]
    | none =>
        simp only [hP]
        cases hG : (json_get data_fields "gameflowPhase").bind Json.as_str with
        | some q => simp [hG]
        | none =>
            simp only [hG]
            have h3 : extract_phase (Json.obj fields) = none := by
              rw [hobj]
              simp [hP, hG]
            have h1 : extract_phase (Json.num n) = none := by simp [extract_phase]
            have h2 : extract_phase (Json.str "OnJsonApiEvent") = none := by
              simp [extract_phase]
            simp only [first_phase, h1, h2, h3]
  · rw [extract_phase_arr_of_guard _ hg]
    exact first_phase_append phase l1 j l2 hpre hj

/-- Witness for C8 at the spec's section-8 scenarios 2–4 (Lobby, ChampSelect,
ReadyCheck). -/
theorem C8_witness :
    extract_phase (.arr [.str "OnJsonApiEvent", .str gameflow_uri, .str "Lobby"])
      = some "Lobby" ∧
    extract_phase (.arr [.num 8, .str "OnJsonApiEvent",
      .obj [("uri", .str gameflow_uri), ("eventType", .str "Update"),
            ("data", .str "ChampSelect")]]) = some "ChampSelect" ∧
    extract_phase (.arr [.num 8, .str "OnJsonApiEvent",
      .obj [("uri", .str gameflow_uri), ("eventType", .str "Update"),
            ("data", .obj [("phase", .str "ReadyCheck")])]]) = some "ReadyCheck" := by
  refine ⟨C8_phase_extraction_amended.1 "Lobby",
    C8_phase_extraction_amended.2.1 8 _ "ChampSelect" rfl rfl, ?_⟩
  have h := C8_phase_extraction_amended.2.2.1 8
    [("uri", .str gameflow_uri), ("eventType", .str "Update"),
     ("data", .obj [("phase", .str "ReadyCheck")])]
    [("phase", .str "ReadyCheck")] rfl rfl
  rw [h]
  rfl

/-- C9: the claim (like the spec and the crate's own `serializes_event` test,
which asserts `"kind":"Kill"`) requires the `kind` value to be the PascalCase
event-kind tag, but `EventKind` carries `#[serde(rename_all = "camelCase")]`, so
the code serializes `Kill` as `"kill"` — evaluated here at that test's own event.
The `payloadKind` camelCase tag, the `kind`/`ts`/`payloadKind`/`data` key set and
the lowercase team serialize as claimed. -/
theorem C9_kind_tag_is_camelCase :
    serialize_event ⟨.kill, 1234, .player ⟨⟨"Example", .order, 0⟩⟩⟩
      = .obj [("kind", .str "kill"), ("ts", .num 1234),
              ("payloadKind", .str "player"),
              ("data", .obj [("player",
                .obj [("summoner_name", .str "Example"), ("team", .str "order"),
                      ("slot", .num 0)])])] ∧
    event_kind_tag .kill ≠ "Kill" ∧ event_kind_tag .levelUp = "levelUp" ∧
    team_tag .order = "order" ∧ team_tag .chaos = "chaos" ∧
    team_tag .neutral = "neutral" := by
  refine ⟨rfl, ?_, rfl, rfl, rfl, rfl⟩
  decide

/-- C3 counterexample: both gold operands the `from_entry` clamp admits are
reachable from the wire (`currentGold` `-3e9` then `3e9` clamp to `-2^31` and
`2^31 - 1`), and the source's i32 subtraction then wraps: the emitted `GoldDelta`
carries `-1`, not the mathematical difference `2^32 - 1` the claim asserts
(debug builds panic at this input instead). -/
theorem C3_counterexample :
    ((PlayerSnapshot.from_entry ⟨"Alpha", "ORDER", 1, some 3000000000, false, []⟩
        Team.order 0).diff
      (PlayerSnapshot.from_entry ⟨"Alpha", "ORDER", 1, some (-3000000000), false, []⟩
        Team.order 0) 5).filter (fun e => e.kind == EventKind.goldDelta)
      = [⟨.goldDelta, 5, .playerGold ⟨⟨"Alpha", Team.order, 0⟩, -1, 2 ^ 31 - 1⟩⟩] ∧
    (PlayerSnapshot.from_entry ⟨"Alpha", "ORDER", 1, some 3000000000, false, []⟩
        Team.order 0).current_gold
      - (PlayerSnapshot.from_entry ⟨"Alpha", "ORDER", 1, some (-3000000000), false, []⟩
        Team.order 0).current_gold = 2 ^ 32 - 1 ∧
    (-1 : Int) ≠ 2 ^ 32 - 1 :=
  ⟨by decide, by decide, by decide⟩

/-- C3 (amended): for a roster entry with a previous snapshot, `diff` emits
exactly one `LevelUp` iff `new.level > prev.level` (carrying the new level),
exactly one `GoldDelta` iff the wrapped i32 difference of the golds is nonzero
(carrying `delta = wrap_i32 (new - prev)` — equal to `new - prev` whenever that
difference fits in i32 — and `total = new`), and exactly one `Respawn` iff
`prev.isDead ∧ ¬new.isDead`; for golds in the i32 range (all snapshots, by the
`from_entry` clamp) the wrapped difference is nonzero exactly when the golds
differ; consequently a first-ever apply emits no events, and diffing an entry
against an identical previous snapshot emits no events. -/
theorem C3_differ :
    (∀ (self previous : PlayerSnapshot) (ts : Nat),
      ((self.diff previous ts).filter (fun e => e.kind == EventKind.levelUp)
        = if previous.level < self.level
          then [⟨.levelUp, ts, .playerLevel ⟨self.reference, self.level⟩⟩] else []) ∧
      ((self.diff previous ts).filter (fun e => e.kind == EventKind.goldDelta)
        = if wrap_i32 (self.current_gold - previous.current_gold) ≠ 0
          then [⟨.goldDelta, ts, .playerGold ⟨self.reference,
                 wrap_i32 (self.current_gold - previous.current_gold),
                 self.current_gold⟩⟩]
          else []) ∧
      ((self.diff previous ts).filter (fun e => e.kind == EventKind.respawn)
        = if previous.is_dead = true ∧ self.is_dead = false
          then [⟨.respawn, ts, .player ⟨self.reference⟩⟩] else [])) ∧
    (∀ self previous : PlayerSnapshot,
      -(2 ^ 31) ≤ self.current_gold → self.current_gold < 2 ^ 31 →
      -(2 ^ 31) ≤ previous.current_gold → previous.current_gold < 2 ^ 31 →
      (wrap_i32 (self.current_gold - previous.current_gold) ≠ 0 ↔
        self.current_gold ≠ previous.current_gold) ∧
      (-(2 ^ 31) ≤ self.current_gold - previous.current_gold →
        self.current_gold - previous.current_gold < 2 ^ 31 →
        wrap_i32 (self.current_gold - previous.current_gold)
          = self.current_gold - previous.current_gold)) ∧
    (∀ (entries : List PlayerListEntry) (ts : Nat),
      (PlayerRegistry.apply [] entries ts).2 = []) ∧
    (∀ (entry : PlayerListEntry) (team : Team) (slot ts : Nat),
      (PlayerSnapshot.from_entry entry team slot).diff
        (PlayerSnapshot.from_entry entry team slot) ts = []) := by
  refine ⟨fun self previous ts => ?_,
    fun self previous h1 h2 h3 h4 =>
      ⟨by unfold wrap_i32; omega, fun h5 h6 => wrap_i32_eq_self h5 h6⟩,
    fun entries ts => ?_, fun entry team slot ts => ?_⟩
  · have hitems : ∀ k : EventKind, k ≠ .itemAdded → k ≠ .itemRemoved →
        (self.diff_items previous ts).filter (fun e => e.kind == k) = [] := by
      intro k h1 h2
      refine List.filter_eq_nil_iff.mpr (fun e he => ?_)
      rcases diff_items_kinds self previous ts e he with h | h <;>
        · simp only [h, beq_iff_eq]
          first
          | exact fun hh => h1 hh.symm
          | exact fun hh => h2 hh.symm
    refine ⟨?_, ?_, ?_⟩
    · rw [PlayerSnapshot.diff]
      simp [List.filter_append, hitems EventKind.levelUp (by decide) (by decide),
        apply_ite (List.filter (fun (e : Event) => e.kind == EventKind.levelUp))]
    · rw [PlayerSnapshot.diff]
      simp [List.filter_append, hitems EventKind.goldDelta (by decide) (by decide),
        apply_ite (List.filter (fun (e : Event) => e.kind == EventKind.goldDelta))]
    · rw [PlayerSnapshot.diff]
      simp [List.filter_append, hitems EventKind.respawn (by decide) (by decide),
        apply_ite (List.filter (fun (e : Event) => e.kind == EventKind.respawn))]
  · rw [PlayerRegistry.apply]
    exact apply_entries_nil_registry ts entries _ [] []
  · exact diff_self _ (fold_items_nodup entry.items) ts

/-- Witness for C3 at the spec's section-8 differ scenario (baseline then
update), plus the in-range gold equivalence at those snapshots' golds. -/
theorem C3_witness :
    ((PlayerSnapshot.from_entry ⟨"Alpha", "ORDER", 2, some 650, false, [⟨1055, none⟩]⟩
        Team.order 0).diff
      (PlayerSnapshot.from_entry ⟨"Alpha", "ORDER", 1, some 500, false, []⟩ Team.order 0)
      2000).filter (fun e => e.kind == EventKind.levelUp)
      = [⟨.levelUp, 2000, .playerLevel ⟨⟨"Alpha", Team.order, 0⟩, 2⟩⟩] ∧
    (wrap_i32 ((PlayerSnapshot.from_entry
          ⟨"Alpha", "ORDER", 2, some 650, false, [⟨1055, none⟩]⟩ Team.order 0).current_gold
        - (PlayerSnapshot.from_entry
          ⟨"Alpha", "ORDER", 1, some 500, false, []⟩ Team.order 0).current_gold) ≠ 0 ↔
      (PlayerSnapshot.from_entry
          ⟨"Alpha", "ORDER", 2, some 650, false, [⟨1055, none⟩]⟩ Team.order 0).current_gold
        ≠ (PlayerSnapshot.from_entry
          ⟨"Alpha", "ORDER", 1, some 500, false, []⟩ Team.order 0).current_gold) := by
  constructor
  · have h := (C3_differ.1
      (PlayerSnapshot.from_entry ⟨"Alpha", "ORDER", 2, some 650, false, [⟨1055, none⟩]⟩
        Team.order 0)
      (PlayerSnapshot.from_entry ⟨"Alpha", "ORDER", 1, some 500, false, []⟩ Team.order 0)
      2000).1
    rw [h]
    rfl
  · exact (C3_differ.2.1
      (PlayerSnapshot.from_entry ⟨"Alpha", "ORDER", 2, some 650, false, [⟨1055, none⟩]⟩
        Team.order 0)
      (PlayerSnapshot.from_entry ⟨"Alpha", "ORDER", 1, some 500, false, []⟩ Team.order 0)
      (by decide) (by decide) (by decide) (by decide)).1

/-- `lookup_item` on a cons cell. -/
theorem lookup_item_cons (p : Nat × ItemEntry) (m : ItemMap) (k : Nat) :
    lookup_item (p :: m) k = if p.1 = k then some p.2 else lookup_item m k := by
  rw [lookup_item, lookup_item]
  by_cases h : p.1 = k
  · rw [List.find?_cons_of_pos _ (by simpa using h), if_pos h]
    rfl
  · rw [List.find?_cons_of_neg _ (by simpa using h), if_neg h]

/-- `lookup_item` after `remove_item`. -/
theorem lookup_remove_item (k id : Nat) :
    ∀ m : ItemMap,
    lookup_item (remove_item m k) id = if id = k then none else lookup_item m id := by
  intro m
  induction m with
  | nil =>
      rw [remove_item]
      by_cases h : id = k <;> simp [h, lookup_item]
  | cons p rest ih =>
      rw [remove_item, List.filter_cons]
      by_cases hp : (p.1 != k) = true
      · rw [if_pos hp, lookup_item_cons, ← remove_item, ih, lookup_item_cons]
        have hpk : p.1 ≠ k := by simpa using hp
        by_cases hid : id = k
        · rw [if_pos hid, if_pos hid, if_neg (hid ▸ hpk)]
        · rw [if_neg hid, if_neg hid]
      · rw [if_neg hp, ← remove_item, ih]
        have hpk : p.1 = k := by simpa using hp
        by_cases hid : id = k
        · rw [if_pos hid, if_pos hid]
        · rw [if_neg hid, if_neg hid, lookup_item_cons,
            if_neg (fun h => hid (h.symm.trans hpk))]

/-- A key is absent from an item map iff its lookup is `none`. -/
theorem lookup_item_eq_none_iff (m : ItemMap) (k : Nat) :
    lookup_item m k = none ↔ k ∉ m.map Prod.fst := by
  rw [lookup_item]
  constructor
  · intro h hk
    rcases List.mem_map.mp hk with ⟨p, hp, hpk⟩
    cases hfind : m.find? (fun p => p.1 == k) with
    | none =>
        have := List.find?_eq_none.mp hfind p hp
        simp [hpk] at this
    | some q =>
        rw [hfind] at h
        simp at h
  · intro h
    have hfind : m.find? (fun p => p.1 == k) = none :=
      List.find?_eq_none.mpr (fun p hp => by
        simp only [beq_iff_eq]
        exact fun hpk => h (List.mem_map.mpr ⟨p, hp, hpk⟩))
    rw [hfind]
    rfl

/-- `or_name` with no fallback is the identity. -/
theorem or_name_none (x : Option String) : or_name x none = x := by
  cases x <;> rfl

/-- Filtering `push_item_events` by an item-event shape. -/
theorem filter_push_item_events (ts : Nat) (player : PlayerRef) (kind kind' : EventKind)
    (id id' : Nat) (name : Option String) (count : Nat) :
    (push_item_events ts player kind id name count).filter (is_item_event kind' id')
      = if kind = kind' ∧ id = id'
        then List.replicate count (mk_item_event kind ts player id name) else [] := by
  rw [push_item_events, List.filter_replicate]
  by_cases hk : kind = kind' ∧ id = id'
  · rw [if_pos hk, if_pos (by simp [is_item_event, hk.1, hk.2])]
    rfl
  · rw [if_neg hk, if_neg ?_]
    simp only [is_item_event, Bool.and_eq_true, beq_iff_eq, not_and]
    intro h1 h2
    exact hk ⟨h1, h2⟩

/-- Looking a key up after dropping every binding whose key is in `ks`. -/
theorem lookup_item_filter_keys (ks : List Nat) (id : Nat) :
    ∀ m : ItemMap,
    lookup_item (m.filter (fun p => !ks.contains p.1)) id
      = if ks.contains id then none else lookup_item m id := by
  intro m
  induction m with
  | nil =>
      by_cases h : ks.contains id <;> simp [h, lookup_item]
  | cons p rest ih =>
      rw [List.filter_cons]
      by_cases hp : (!ks.contains p.1) = true
      · rw [if_pos hp, lookup_item_cons, ih, lookup_item_cons]
        by_cases hpk : p.1 = id
        · rw [if_pos hpk, if_neg (by rw [← hpk]; simpa using hp), if_pos hpk]
        · rw [if_neg hpk, if_neg hpk]
      · rw [if_neg hp, ih]
        have hmem : ks.contains p.1 = true := by simpa using hp
        by_cases hk : ks.contains id = true
        · rw [if_pos hk, if_pos hk]
        · rw [if_neg hk, if_neg hk, lookup_item_cons,
            if_neg (fun h => hk (by rw [← h]; exact hmem))]

/-- `bump_item` raises exactly the bumped key's count by one. -/
theorem item_count_bump (item : PlayerItemEntry) (id : Nat) :
    ∀ m : ItemMap,
    item_count (bump_item m item) id
      = item_count m id + (if item.item_id = id then 1 else 0) := by
  intro m
  induction m with
  | nil =>
      rw [bump_item, item_count, item_count, lookup_item_cons]
      by_cases h : item.item_id = id <;> simp [h, lookup_item]
  | cons p rest ih =>
      obtain ⟨k, e⟩ := p
      rw [bump_item]
      by_cases hk : k = item.item_id
      · rw [if_pos hk, item_count, item_count, lookup_item_cons, lookup_item_cons]
        by_cases hid : k = id
        · rw [if_pos hid, if_pos hid, if_pos (hk ▸ hid)]
        · rw [if_neg hid, if_neg hid, if_neg (fun h => hid (hk.symm ▸ h) : ¬item.item_id = id)]
          rfl
      · rw [if_neg hk, item_count, item_count, lookup_item_cons, lookup_item_cons]
        by_cases hid : k = id
        · rw [if_pos hid, if_pos hid,
            if_neg (fun h => hk ((hid.trans h.symm)) : ¬item.item_id = id)]
          rfl
        · rw [if_neg hid, if_neg hid]
          exact ih

/-- The fold step of `fold_items` counts occurrences of each nonzero id. -/
theorem item_count_foldl (id : Nat) (hid : id ≠ 0) :
    ∀ (l : List PlayerItemEntry) (m : ItemMap),
    item_count (l.foldl (fun m item => if item.item_id = 0 then m else bump_item m item) m) id
      = item_count m id + (l.filter (fun it => it.item_id == id)).length := by
  intro l
  induction l with
  | nil => intro m; simp
  | cons item rest ih =>
      intro m
      rw [List.foldl_cons, List.filter_cons]
      by_cases h0 : item.item_id = 0
      · rw [if_pos h0, ih m,
          if_neg (by
            simp only [h0, beq_iff_eq]
            exact fun h => hid h.symm)]
      · rw [if_neg h0, ih (bump_item m item), item_count_bump item id m]
        by_cases hmatch : item.item_id = id
        · rw [if_pos hmatch, if_pos (by simpa using hmatch)]
          simp [Nat.add_assoc, Nat.add_comm]
        · rw [if_neg hmatch, if_neg (by simpa using hmatch)]
          simp

/-- The fold step of `fold_items` never creates a binding for id 0. -/
theorem item_count_foldl_zero :
    ∀ (l : List PlayerItemEntry) (m : ItemMap),
    item_count (l.foldl (fun m item => if item.item_id = 0 then m else bump_item m item) m) 0
      = item_count m 0 := by
  intro l
  induction l with
  | nil => intro m; rfl
  | cons item rest ih =>
      intro m
      rw [List.foldl_cons]
      by_cases h0 : item.item_id = 0
      · rw [if_pos h0, ih m]
      · rw [if_neg h0, ih (bump_item m item), item_count_bump item 0 m, if_neg h0]
        rfl

/-- Step equation of `diff_items_new` when the head id is present in `remaining`. -/
theorem diff_items_new_cons_found (reference : PlayerRef) (ts k : Nat) (ne : ItemEntry)
    (rest remaining : ItemMap) (oe : ItemEntry)
    (hlk : lookup_item remaining k = some oe) :
    diff_items_new reference ts ((k, ne) :: rest) remaining
      = ((if oe.count < ne.count then
            push_item_events ts reference .itemAdded k (or_name ne.name oe.name)
              (ne.count - oe.count)
          else if ne.count < oe.count then
            push_item_events ts reference .itemRemoved k (or_name oe.name ne.name)
              (oe.count - ne.count)
          else []) ++ (diff_items_new reference ts rest (remove_item remaining k)).1,
         (diff_items_new reference ts rest (remove_item remaining k)).2) := by
  rw [diff_items_new]
  simp only [hlk]

/-- Step equation of `diff_items_new` when the head id is absent from `remaining`. -/
theorem diff_items_new_cons_missing (reference : PlayerRef) (ts k : Nat) (ne : ItemEntry)
    (rest remaining : ItemMap) (hlk : lookup_item remaining k = none) :
    diff_items_new reference ts ((k, ne) :: rest) remaining
      = (push_item_events ts reference .itemAdded k ne.name ne.count
           ++ (diff_items_new reference ts rest remaining).1,
         (diff_items_new reference ts rest remaining).2) := by
  rw [diff_items_new]
  simp only [hlk]

/-- Filtering `push_item_events` with a different kind yields nothing. -/
theorem filter_push_item_events_ne_kind {ts : Nat} {player : PlayerRef}
    {kind kind' : EventKind} {id id' : Nat} {name : Option String} {count : Nat}
    (h : kind ≠ kind') :
    (push_item_events ts player kind id name count).filter (is_item_event kind' id')
      = [] := by
  rw [filter_push_item_events, if_neg (fun hc => h hc.1)]

/-- Filtering `push_item_events` with a different item id yields nothing. -/
theorem filter_push_item_events_ne_id {ts : Nat} {player : PlayerRef}
    {kind kind' : EventKind} {id id' : Nat} {name : Option String} {count : Nat}
    (h : id ≠ id') :
    (push_item_events ts player kind id name count).filter (is_item_event kind' id')
      = [] := by
  rw [filter_push_item_events, if_neg (fun hc => h hc.2)]

/-- Filtering `push_item_events` with its own kind and id keeps everything. -/
theorem filter_push_item_events_same (ts : Nat) (player : PlayerRef)
    (kind : EventKind) (id : Nat) (name : Option String) (count : Nat) :
    (push_item_events ts player kind id name count).filter (is_item_event kind id)
      = List.replicate count (mk_item_event kind ts player id name) := by
  rw [filter_push_item_events, if_pos ⟨rfl, rfl⟩]

/-- The new-side pass of the item diff, characterized per item id: the `ItemAdded`
and `ItemRemoved` events it emits for a given id, and the leftover `remaining`. -/
theorem diff_items_new_spec (reference : PlayerRef) (ts id : Nat) :
    ∀ newItems : ItemMap, (newItems.map Prod.fst).Nodup →
    ∀ remaining : ItemMap,
    ((diff_items_new reference ts newItems remaining).1.filter
        (is_item_event .itemAdded id)
      = (match lookup_item newItems id, lookup_item remaining id with
         | some ne, some oe =>
            List.replicate (ne.count - oe.count)
              (mk_item_event .itemAdded ts reference id (or_name ne.name oe.name))
         | some ne, none =>
            List.replicate ne.count (mk_item_event .itemAdded ts reference id ne.name)
         | none, _ => [])) ∧
    ((diff_items_new reference ts newItems remaining).1.filter
        (is_item_event .itemRemoved id)
      = (match lookup_item newItems id, lookup_item remaining id with
         | some ne, some oe =>
            List.replicate (oe.count - ne.count)
              (mk_item_event .itemRemoved ts reference id (or_name oe.name ne.name))
         | some _, none => []
         | none, _ => [])) ∧
    ((diff_items_new reference ts newItems remaining).2
      = remaining.filter (fun p => !((newItems.map Prod.fst).contains p.1))) := by
  have hra : EventKind.itemRemoved ≠ EventKind.itemAdded := by decide
  have har : EventKind.itemAdded ≠ EventKind.itemRemoved := by decide
  intro newItems
  induction newItems with
  | nil =>
      intro _ remaining
      refine ⟨rfl, rfl, ?_⟩
      rw [diff_items_new]
      simp
  | cons head rest ih =>
      intro hnd remaining
      obtain ⟨k, ne⟩ := head
      simp only [List.map_cons, List.nodup_cons] at hnd
      have hknotin : k ∉ rest.map Prod.fst := hnd.1
      have hlkrest : lookup_item rest k = none :=
        (lookup_item_eq_none_iff rest k).mpr hknotin
      cases hlk : lookup_item remaining k with
      | some oe =>
          obtain ⟨ih1, ih2, ih3⟩ := ih hnd.2 (remove_item remaining k)
          rw [diff_items_new_cons_found reference ts k ne rest remaining oe hlk]
          refine ⟨?_, ?_, ?_⟩
          · rw [List.filter_append, ih1, lookup_remove_item k id remaining,
              lookup_item_cons]
            by_cases hid : k = id
            · subst hid
              rw [if_pos rfl, if_pos rfl, hlkrest, hlk]
              have hseg : (if oe.count < ne.count then
                    push_item_events ts reference .itemAdded k (or_name ne.name oe.name)
                      (ne.count - oe.count)
                  else if ne.count < oe.count then
                    push_item_events ts reference .itemRemoved k (or_name oe.name ne.name)
                      (oe.count - ne.count)
                  else []).filter (is_item_event .itemAdded k)
                  = List.replicate (ne.count - oe.count)
                      (mk_item_event .itemAdded ts reference k
                        (or_name ne.name oe.name)) := by
                by_cases hlt : oe.count < ne.count
                · rw [if_pos hlt, filter_push_item_events_same]
                · rw [if_neg hlt, Nat.sub_eq_zero_of_le (Nat.le_of_not_lt hlt),
                    List.replicate_zero]
                  by_cases hgt : ne.count < oe.count
                  · rw [if_pos hgt, filter_push_item_events_ne_kind hra]
                  · rw [if_neg hgt]
                    rfl
              rw [hseg]
              simp
            · rw [if_neg hid, if_neg (fun h : id = k => hid h.symm)]
              have hseg : (if oe.count < ne.count then
                    push_item_events ts reference .itemAdded k (or_name ne.name oe.name)
                      (ne.count - oe.count)
                  else if ne.count < oe.count then
                    push_item_events ts reference .itemRemoved k (or_name oe.name ne.name)
                      (oe.count - ne.count)
                  else []).filter (is_item_event .itemAdded id) = [] := by
                by_cases hlt : oe.count < ne.count
                · rw [if_pos hlt, filter_push_item_events_ne_id hid]
                · rw [if_neg hlt]
                  by_cases hgt : ne.count < oe.count
                  · rw [if_pos hgt, filter_push_item_events_ne_kind hra]
                  · rw [if_neg hgt]
                    rfl
              rw [hseg, List.nil_append]
          · rw [List.filter_append, ih2, lookup_remove_item k id remaining,
              lookup_item_cons]
            by_cases hid : k = id
            · subst hid
              rw [if_pos rfl, if_pos rfl, hlkrest, hlk]
              have hseg : (if oe.count < ne.count then
                    push_item_events ts reference .itemAdded k (or_name ne.name oe.name)
                      (ne.count - oe.count)
                  else if ne.count < oe.count then
                    push_item_events ts reference .itemRemoved k (or_name oe.name ne.name)
                      (oe.count - ne.count)
                  else []).filter (is_item_event .itemRemoved k)
                  = List.replicate (oe.count - ne.count)
                      (mk_item_event .itemRemoved ts reference k
                        (or_name oe.name ne.name)) := by
                by_cases hlt : oe.count < ne.count
                · rw [if_pos hlt, filter_push_item_events_ne_kind har,
                    Nat.sub_eq_zero_of_le (Nat.le_of_lt hlt), List.replicate_zero]
                · rw [if_neg hlt]
                  by_cases hgt : ne.count < oe.count
                  · rw [if_pos hgt, filter_push_item_events_same]
                  · rw [if_neg hgt,
                      Nat.sub_eq_zero_of_le (Nat.le_of_not_lt hgt), List.replicate_zero]
                    rfl
              rw [hseg]
              simp
            · rw [if_neg hid, if_neg (fun h : id = k => hid h.symm)]
              have hseg : (if oe.count < ne.count then
                    push_item_events ts reference .itemAdded k (or_name ne.name oe.name)
                      (ne.count - oe.count)
                  else if ne.count < oe.count then
                    push_item_events ts reference .itemRemoved k (or_name oe.name ne.name)
                      (oe.count - ne.count)
                  else []).filter (is_item_event .itemRemoved id) = [] := by
                by_cases hlt : oe.count < ne.count
                · rw [if_pos hlt, filter_push_item_events_ne_kind har]
                · rw [if_neg hlt]
                  by_cases hgt : ne.count < oe.count
                  · rw [if_pos hgt, filter_push_item_events_ne_id hid]
                  · rw [if_neg hgt]
                    rfl
              rw [hseg, List.nil_append]
          · rw [ih3, remove_item, List.filter_filter]
            refine List.filter_congr (fun p _ => ?_)
            simp only [List.map_cons, List.contains_cons, Bool.not_or, Bool.and_comm]
            rfl
      | none =>
          obtain ⟨ih1, ih2, ih3⟩ := ih hnd.2 remaining
          rw [diff_items_new_cons_missing reference ts k ne rest remaining hlk]
          have hremnone : ∀ p ∈ remaining, p.1 ≠ k := by
            intro p hp hpk
            cases hfind : remaining.find? (fun q => q.1 == k) with
            | none =>
                have := List.find?_eq_none.mp hfind p hp
                simp [hpk] at this
            | some q =>
                rw [lookup_item, hfind] at hlk
                simp at hlk
          refine ⟨?_, ?_, ?_⟩
          · rw [List.filter_append, ih1, lookup_item_cons]
            by_cases hid : k = id
            · subst hid
              rw [filter_push_item_events_same, if_pos rfl, hlkrest, hlk]
              simp
            · rw [filter_push_item_events_ne_id hid, if_neg hid, List.nil_append]
          · rw [List.filter_append, ih2, filter_push_item_events_ne_kind har,
              List.nil_append, lookup_item_cons]
            by_cases hid : k = id
            · subst hid
              rw [if_pos rfl, hlkrest, hlk]
            · rw [if_neg hid]
          · rw [ih3]
            refine List.filter_congr (fun p hp => ?_)
            simp only [List.map_cons, List.contains_cons, Bool.not_or]
            have hpk : (p.1 == k) = false := by
              simp only [beq_eq_false_iff_ne, ne_eq]
              exact hremnone p hp
            rw [hpk]
            simp

/-- The leftover-removal pass of the item diff, characterized per item id. -/
theorem filter_removal_pass (reference : PlayerRef) (ts id : Nat) :
    ∀ m : ItemMap, (m.map Prod.fst).Nodup →
    ((m.flatMap (fun p =>
        push_item_events ts reference .itemRemoved p.1 p.2.name p.2.count)).filter
          (is_item_event .itemRemoved id)
      = (match lookup_item m id with
         | some oe => List.replicate oe.count
             (mk_item_event .itemRemoved ts reference id oe.name)
         | none => [])) ∧
    ((m.flatMap (fun p =>
        push_item_events ts reference .itemRemoved p.1 p.2.name p.2.count)).filter
          (is_item_event .itemAdded id) = []) := by
  have hra : EventKind.itemRemoved ≠ EventKind.itemAdded := by decide
  intro m
  induction m with
  | nil => exact fun _ => ⟨rfl, rfl⟩
  | cons p rest ih =>
      intro hnd
      obtain ⟨k, e⟩ := p
      simp only [List.map_cons, List.nodup_cons] at hnd
      obtain ⟨ih1, ih2⟩ := ih hnd.2
      have hlkrest : lookup_item rest k = none :=
        (lookup_item_eq_none_iff rest k).mpr hnd.1
      rw [List.flatMap_cons]
      refine ⟨?_, ?_⟩
      · rw [List.filter_append, ih1, lookup_item_cons]
        by_cases hid : k = id
        · subst hid
          rw [filter_push_item_events_same, if_pos rfl, hlkrest]
          simp
        · rw [filter_push_item_events_ne_id hid, if_neg hid, List.nil_append]
      · rw [List.filter_append, ih2, filter_push_item_events_ne_kind hra,
          List.nil_append]

/-- A key that looks up successfully is contained in the key list. -/
theorem contains_of_lookup_some {m : ItemMap} {id : Nat} {e : ItemEntry}
    (h : lookup_item m id = some e) : (m.map Prod.fst).contains id = true := by
  by_contra hc
  have hnot : id ∉ m.map Prod.fst := by
    simpa [List.contains] using hc
  rw [(lookup_item_eq_none_iff m id).mpr hnot] at h
  cases h

/-- A key that fails to look up is not contained in the key list. -/
theorem contains_eq_false_of_lookup_none {m : ItemMap} {id : Nat}
    (h : lookup_item m id = none) : (m.map Prod.fst).contains id = false := by
  have hnot := (lookup_item_eq_none_iff m id).mp h
  simpa [List.contains] using hnot

/-- C4: between two snapshots whose item lists have been folded (id 0 discarded,
duplicates counting upward), `diff_items` emits, for each item id, exactly
`new.count - prev.count` `ItemAdded` events (so `new.count` when the id is new)
and exactly `prev.count - new.count` `ItemRemoved` events (so `prev.count` when
the id disappeared), each carrying the originating side's folded name when it has
one and the other side's otherwise; and the fold counts occurrences of each
nonzero id while discarding id 0. -/
theorem C4_item_diff :
    (∀ (new_ref prev_ref : PlayerRef) (new_level prev_level : Nat)
       (new_gold prev_gold : Int) (new_dead prev_dead : Bool)
       (new_list prev_list : List PlayerItemEntry) (ts id : Nat),
      (((PlayerSnapshot.mk new_ref new_level new_gold new_dead
            (fold_items new_list)).diff_items
          (PlayerSnapshot.mk prev_ref prev_level prev_gold prev_dead
            (fold_items prev_list)) ts).filter (is_item_event .itemAdded id)
        = List.replicate
            (item_count (fold_items new_list) id - item_count (fold_items prev_list) id)
            (mk_item_event .itemAdded ts new_ref id
              (or_name (item_name_of (fold_items new_list) id)
                (item_name_of (fold_items prev_list) id)))) ∧
      (((PlayerSnapshot.mk new_ref new_level new_gold new_dead
            (fold_items new_list)).diff_items
          (PlayerSnapshot.mk prev_ref prev_level prev_gold prev_dead
            (fold_items prev_list)) ts).filter (is_item_event .itemRemoved id)
        = List.replicate
            (item_count (fold_items prev_list) id - item_count (fold_items new_list) id)
            (mk_item_event .itemRemoved ts new_ref id
              (or_name (item_name_of (fold_items prev_list) id)
                (item_name_of (fold_items new_list) id))))) ∧
    (∀ (l : List PlayerItemEntry) (id : Nat), id ≠ 0 →
      item_count (fold_items l) id = (l.filter (fun it => it.item_id == id)).length) ∧
    (∀ l : List PlayerItemEntry, item_count (fold_items l) 0 = 0) := by
  refine ⟨?_, fun l id hid => ?_, fun l => ?_⟩
  · intro new_ref prev_ref new_level prev_level new_gold prev_gold new_dead prev_dead
      new_list prev_list ts id
    have hN := fold_items_nodup new_list
    have hP := fold_items_nodup prev_list
    obtain ⟨h1, h2, h3⟩ :=
      diff_items_new_spec new_ref ts id (fold_items new_list) hN (fold_items prev_list)
    have hndrem : (((fold_items prev_list).filter
        (fun p => !(((fold_items new_list).map Prod.fst).contains p.1))).map
          Prod.fst).Nodup :=
      hP.sublist (List.Sublist.map Prod.fst (List.filter_sublist _))
    obtain ⟨h4, h5⟩ := filter_removal_pass new_ref ts id
      ((fold_items prev_list).filter
        (fun p => !(((fold_items new_list).map Prod.fst).contains p.1))) hndrem
    rw [PlayerSnapshot.diff_items]
    constructor
    · rw [List.filter_append, h1, h3, h5, List.append_nil]
      rw [item_count, item_count, item_name_of, item_name_of]
      cases hNl : lookup_item (fold_items new_list) id with
      | some ne =>
          cases hPl : lookup_item (fold_items prev_list) id with
          | some oe => rfl
          | none => rw [or_name_none, Nat.sub_zero]
      | none =>
          cases hPl : lookup_item (fold_items prev_list) id with
          | some oe => rw [Nat.zero_sub, List.replicate_zero]
          | none => rfl
    · rw [List.filter_append, h2, h3, h4,
        lookup_item_filter_keys ((fold_items new_list).map Prod.fst) id
          (fold_items prev_list)]
      rw [item_count, item_count, item_name_of, item_name_of]
      cases hNl : lookup_item (fold_items new_list) id with
      | some ne =>
          rw [if_pos (contains_of_lookup_some hNl)]
          cases hPl : lookup_item (fold_items prev_list) id with
          | some oe => rw [List.append_nil]
          | none => rw [Nat.zero_sub, List.replicate_zero, List.append_nil]
      | none =>
          rw [if_neg (by rw [contains_eq_false_of_lookup_none hNl]; exact Bool.false_ne_true)]
          cases hPl : lookup_item (fold_items prev_list) id with
          | some oe => rw [List.nil_append, or_name_none, Nat.sub_zero]
          | none => rfl
  · rw [fold_items, item_count_foldl id hid l [],
      show item_count [] id = 0 from rfl, Nat.zero_add]
  · rw [fold_items, item_count_foldl_zero l []]
    rfl

/-- Witness for C4 at a concrete duplicated item list (two copies of 1055 bought,
one 2003 sold). -/
theorem C4_witness :
    (1055 ≠ 0 ∧
      item_count (fold_items [⟨1055, some "B"⟩, ⟨1055, none⟩, ⟨0, none⟩]) 1055
        = (([⟨1055, some "B"⟩, ⟨1055, none⟩, ⟨0, none⟩] :
            List PlayerItemEntry).filter (fun it => it.item_id == 1055)).length) ∧
    ((PlayerSnapshot.mk ⟨"Alpha", .order, 0⟩ 2 650 false
        (fold_items [⟨1055, some "B"⟩, ⟨1055, none⟩, ⟨0, none⟩])).diff_items
      (PlayerSnapshot.mk ⟨"Alpha", .order, 0⟩ 1 500 false
        (fold_items [⟨2003, some "P"⟩])) 2000).filter (is_item_event .itemAdded 1055)
      = List.replicate
          (item_count (fold_items [⟨1055, some "B"⟩, ⟨1055, none⟩, ⟨0, none⟩]) 1055
            - item_count (fold_items [⟨2003, some "P"⟩]) 1055)
          (mk_item_event .itemAdded 2000 ⟨"Alpha", .order, 0⟩ 1055
            (or_name (item_name_of (fold_items [⟨1055, some "B"⟩, ⟨1055, none⟩, ⟨0, none⟩]) 1055)
              (item_name_of (fold_items [⟨2003, some "P"⟩]) 1055))) :=
  ⟨⟨by decide, C4_item_diff.2.1 [⟨1055, some "B"⟩, ⟨1055, none⟩, ⟨0, none⟩] 1055
      (by decide)⟩,
   (C4_item_diff.1 ⟨"Alpha", .order, 0⟩ ⟨"Alpha", .order, 0⟩ 2 1 650 500 false false
      [⟨1055, some "B"⟩, ⟨1055, none⟩, ⟨0, none⟩] [⟨2003, some "P"⟩] 2000 1055).1⟩

/-- C5: the Activity Governor's `on_poll` with at least one event sets Combat,
resets `lastActivity` and returns `pollIntervalCombat`; with zero events it demotes
Combat to Normal exactly when `now - lastActivity ≥ combatCooldown` and Normal to
Idle exactly when `now - lastActivity ≥ idleCooldown` (resetting `lastActivity` at
each demotion), returning the interval bound to the resulting state; `on_error`
forces Idle, resets `lastActivity` and returns `errorBackoff`.  With the default
configuration this yields 150 ms on activity, 750 ms after the combat cooldown,
1500 ms after the idle cooldown, and 1000 ms on error. -/
theorem C5_activity_governor :
    (∀ (s : ActivityState) (now : Nat) (config : DaemonConfig),
        s.on_poll true now config
          = (ActivityState.mk .combat now, config.poll_interval_combat)) ∧
    (∀ (la now : Nat) (config : DaemonConfig),
        (config.combat_cooldown ≤ now - la →
          (ActivityState.mk .combat la).on_poll false now config
            = (ActivityState.mk .normal now, config.poll_interval_normal)) ∧
        (¬ config.combat_cooldown ≤ now - la →
          (ActivityState.mk .combat la).on_poll false now config
            = (ActivityState.mk .combat la, config.poll_interval_combat))) ∧
    (∀ (la now : Nat) (config : DaemonConfig),
        (config.idle_cooldown ≤ now - la →
          (ActivityState.mk .normal la).on_poll false now config
            = (ActivityState.mk .idle now, config.poll_interval_idle)) ∧
        (¬ config.idle_cooldown ≤ now - la →
          (ActivityState.mk .normal la).on_poll false now config
            = (ActivityState.mk .normal la, config.poll_interval_normal))) ∧
    (∀ (la now : Nat) (config : DaemonConfig),
        (ActivityState.mk .idle la).on_poll false now config
          = (ActivityState.mk .idle la, config.poll_interval_idle)) ∧
    (∀ (s : ActivityState) (now : Nat) (config : DaemonConfig),
        s.on_error now config = (ActivityState.mk .idle now, config.error_backoff)) ∧
    ((ActivityState.mk .idle 0).on_poll true 10000 DaemonConfig.default_config
        = (ActivityState.mk .combat 10000, 150) ∧
     (ActivityState.mk .combat 10000).on_poll false 15000 DaemonConfig.default_config
        = (ActivityState.mk .normal 15000, 750) ∧
     (ActivityState.mk .normal 15000).on_poll false 35000 DaemonConfig.default_config
        = (ActivityState.mk .idle 35000, 1500) ∧
     (ActivityState.mk .idle 35000).on_error 35000 DaemonConfig.default_config
        = (ActivityState.mk .idle 35000, 1000)) := by
  refine ⟨fun s now config => rfl, fun la now config => ⟨fun h => ?_, fun h => ?_⟩,
    fun la now config => ⟨fun h => ?_, fun h => ?_⟩, fun la now config => rfl,
    fun s now config => rfl, by decide, by decide, by decide, by decide⟩ <;>
  simp [ActivityState.on_poll, h]

/-- Witness for C5 at a concrete demotion input. -/
theorem C5_witness :
    DaemonConfig.default_config.combat_cooldown ≤ 5000 - 0 ∧
    (ActivityState.mk .combat 0).on_poll false 5000 DaemonConfig.default_config
      = (ActivityState.mk .normal 5000, 750) :=
  ⟨by decide, (C5_activity_governor.2.1 0 5000 DaemonConfig.default_config).1 (by decide)⟩

/-- C1 counterexample: the wire `EventID` is a full u64, so a highwater of
`2^64 - 1` is reachable; there the source's u64 `value + 1` wraps to 0 (release;
debug panics), so re-ingesting a batch whose ids were all already ingested — with
no `eventId == 0` restart marker — keeps everything and re-emits its
normalization instead of yielding no events. -/
theorem C1_counterexample :
    (∀ e ∈ [RawEvent.mk (2 ^ 64 - 1) "GameStart" 10 none none [] none],
        ¬(e.event_id = 0 ∧ e.event_time < 5)) ∧
    (∀ e ∈ [RawEvent.mk (2 ^ 64 - 1) "GameStart" 10 none none [] none],
        e.event_id ≤ 2 ^ 64 - 1) ∧
    DigestState.next_event_id_of (some (2 ^ 64 - 1)) = 0 ∧
    (ingest (some (2 ^ 64 - 1))
        [RawEvent.mk (2 ^ 64 - 1) "GameStart" 10 none none [] none] []).2 ≠ [] := by
  have hsr : should_reset (some (2 ^ 64 - 1))
      [RawEvent.mk (2 ^ 64 - 1) "GameStart" 10 none none [] none] = false := by decide
  refine ⟨by decide, by decide, by decide, ?_⟩
  rw [ingest]
  simp only [hsr, if_neg Bool.false_ne_true]
  simp [DigestState.next_event_id_of, normalize_events, normalize_one, is_phase_change]

/-- C1 (amended): with no restart marker in the batch, one ingest keeps exactly
the raw events with `eventId ≥ (highwater + 1) % 2^64` (all of them when the
highwater is unset — and also, wrapping, when it is `2^64 - 1`), normalizes only
the kept events, and sets the highwater to the maximum kept `eventId`, leaving it
unchanged when nothing is kept; consequently, provided the highwater is below
`2^64 - 1`, re-ingesting a batch whose ids were all already ingested yields no
events and leaves the highwater unchanged. -/
theorem C1_dedup_filter :
    (∀ (last : Option Nat) (raw : List RawEvent) (reg : PlayerRegistry),
      (∀ e ∈ raw, ¬(e.event_id = 0 ∧ e.event_time < 5)) →
      (ingest last raw reg).2
          = normalize_events
              (raw.filter (fun e => DigestState.next_event_id_of last ≤ e.event_id)) reg ∧
      (ingest last raw reg).1
          = (match max_event_id
                (raw.filter (fun e => DigestState.next_event_id_of last ≤ e.event_id)) with
             | some m => some m
             | none => last)) ∧
    (∀ raw : List RawEvent,
      raw.filter (fun e => DigestState.next_event_id_of none ≤ e.event_id) = raw) ∧
    (∀ (h : Nat) (raw : List RawEvent) (reg : PlayerRegistry),
      h < 2 ^ 64 - 1 →
      (∀ e ∈ raw, ¬(e.event_id = 0 ∧ e.event_time < 5)) →
      (∀ e ∈ raw, e.event_id ≤ h) →
      ingest (some h) raw reg = (some h, [])) := by
  have hreset : ∀ (last : Option Nat) (raw : List RawEvent),
      (∀ e ∈ raw, ¬(e.event_id = 0 ∧ e.event_time < 5)) →
      should_reset last raw = false := by
    intro last raw hn
    cases last with
    | none => rfl
    | some h =>
        simp only [should_reset, List.any_eq_false]
        intro e he
        have := hn e he
        simp only [Bool.and_eq_true, beq_iff_eq, decide_eq_true_eq, not_and] at this ⊢
        intro h0
        exact fun ht => this h0 ht
  refine ⟨fun last raw reg hn => ?_, fun raw => ?_, fun h raw reg hlt hn hle => ?_⟩
  · rw [ingest]
    simp only [hreset last raw hn, if_neg Bool.false_ne_true]
    exact ⟨trivial, trivial⟩
  · exact List.filter_eq_self.mpr (fun e _ => by simp [DigestState.next_event_id_of])
  · have hmod : DigestState.next_event_id_of (some h) = h + 1 := by
      rw [DigestState.next_event_id_of]
      exact Nat.mod_eq_of_lt (by omega)
    have hfilter :
        raw.filter (fun e => decide (DigestState.next_event_id_of (some h) ≤ e.event_id))
          = [] := by
      refine List.filter_eq_nil_iff.mpr (fun e he => ?_)
      simp only [hmod, decide_eq_true_eq, not_le]
      exact Nat.lt_succ_of_le (hle e he)
    rw [ingest]
    simp only [hreset (some h) raw hn, if_neg Bool.false_ne_true, hfilter]
    rfl

/-- Witness for C1 at a concrete replay input below the wrap point. -/
theorem C1_witness :
    (1 : Nat) < 2 ^ 64 - 1 ∧
    (∀ e ∈ [RawEvent.mk 1 "GameStart" 10 none none [] none],
        ¬(e.event_id = 0 ∧ e.event_time < 5)) ∧
    (∀ e ∈ [RawEvent.mk 1 "GameStart" 10 none none [] none], e.event_id ≤ 1) ∧
    ingest (some 1) [RawEvent.mk 1 "GameStart" 10 none none [] none] [] = (some 1, []) :=
  ⟨by decide, by decide, by decide,
   C1_dedup_filter.2.2 1 [RawEvent.mk 1 "GameStart" 10 none none [] none] []
     (by decide) (by decide) (by decide)⟩

/-- C2: if the highwater is set and the batch contains an event with
`eventId == 0` and `eventTime < 5.0`, the deduplicator resets the highwater
(`should_reset` fires) before filtering, so every event is kept and the full
normalization of the batch is produced; when the highwater is unset no reset
occurs. -/
theorem C2_restart_reset :
    (∀ (h : Nat) (raw : List RawEvent) (reg : PlayerRegistry),
      (∃ e ∈ raw, e.event_id = 0 ∧ e.event_time < 5) →
      should_reset (some h) raw = true ∧
      raw.filter (fun e => DigestState.next_event_id_of none ≤ e.event_id) = raw ∧
      (ingest (some h) raw reg).2 = normalize_events raw reg) ∧
    (∀ raw : List RawEvent, should_reset none raw = false) := by
  refine ⟨fun h raw reg hm => ?_, fun raw => rfl⟩
  obtain ⟨e, he, h0, ht⟩ := hm
  have hsr : should_reset (some h) raw = true := by
    simp only [should_reset, List.any_eq_true]
    exact ⟨e, he, by simp [h0, ht]⟩
  have hfilter : raw.filter (fun e => DigestState.next_event_id_of none ≤ e.event_id) = raw :=
    List.filter_eq_self.mpr (fun x _ => by simp [DigestState.next_event_id_of])
  refine ⟨hsr, hfilter, ?_⟩
  rw [ingest]
  simp only [hsr, if_pos]
  rw [hfilter]

/-- Witness for C2 at a concrete restart input. -/
theorem C2_witness :
    (∃ e ∈ [RawEvent.mk 0 "GameStart" 1 none none [] none],
        e.event_id = 0 ∧ e.event_time < 5) ∧
    (ingest (some 7) [RawEvent.mk 0 "GameStart" 1 none none [] none] []).2
      = normalize_events [RawEvent.mk 0 "GameStart" 1 none none [] none] [] :=
  ⟨⟨RawEvent.mk 0 "GameStart" 1 none none [] none, by decide⟩,
   (C2_restart_reset.1 7 [RawEvent.mk 0 "GameStart" 1 none none [] none] []
     ⟨RawEvent.mk 0 "GameStart" 1 none none [] none, by decide⟩).2.2⟩

end Levents
